import Mathlib

/-!
Module engine of the wazevo backend (module_engine.go)

A shallow embedding of `internal/engine/wazevo/module_engine.go`.

* Raw memory is a byte map `Mem`; every `unsafe.Pointer` of the source is the
  natural number it denotes, every `binary.LittleEndian` access is a
  little-endian access to that byte map.
* A Go slice is its header (address of element 0 and length); indexing or
  re-slicing out of range is the Go run-time panic `Fault.goPanic`.
* A `*moduleEngine` is the position of the engine in `World.engines`;
  a nil pointer is `none`.
* `wasm.Index`, `wasm.FunctionTypeID` (uint32) and `uintptr` are `Nat`;
  `wazevoapi.Offset` (int32) and Go `int` are `Int`.
-/

namespace Wazevo

/-! ## Faults -/

/-- Ways in which a call of the source does not return normally. The first two
are the `wasmruntime` errors the source panics with; `goPanic` is a Go run-time
panic (index or slice bound out of range, nil dereference); `outOfFuel` is the
recursion budget of the embedding running out. -/
inductive Fault where
  | ErrRuntimeInvalidTableAccess
  | ErrRuntimeIndirectCallTypeMismatch
  | goPanic
  | outOfFuel
  deriving DecidableEq, Repr

/-! ## Byte-addressed memory and little-endian accesses -/

/-- Byte-addressed memory: the byte stored at each address. -/
abbrev Mem := Nat → Nat

/-- Store one byte. -/
def Mem.write (mem : Mem) (a b : Nat) : Mem :=
  fun x => if x = a then b else mem x

/-- Store the low `n` bytes of `v` at `a`, least significant byte first. -/
def putLE : Nat → Mem → Nat → Nat → Mem
  | 0, mem, _, _ => mem
  | n + 1, mem, a, v => putLE n (mem.write a (v % 256)) (a + 1) (v / 256)

/-- Load `n` bytes at `a` as a little-endian number. -/
def getLE : Nat → Mem → Nat → Nat
  | 0, _, _ => 0
  | n + 1, mem, a => mem a % 256 + 256 * getLE n mem (a + 1)

/-- Header of a Go slice: address of element 0 and length. -/
structure Slice where
  ptr : Nat
  len : Nat
  deriving DecidableEq, Repr

/-- The address `&s[i]` of element `i` of a byte slice; Go panics when `i` is out
of range. -/
def Slice.addrOf (s : Slice) (i : Int) : Except Fault Nat :=
  if 0 ≤ i ∧ i < s.len then .ok (s.ptr + i.toNat) else .error .goPanic

/-- The call `binary.LittleEndian.PutUint64(s[off:], v)`: re-slicing panics
when `off` is outside `0..len`, and `PutUint64` panics when fewer than 8 bytes
remain. -/
def PutUint64 (mem : Mem) (s : Slice) (off : Int) (v : Nat) : Except Fault Mem :=
  if 0 ≤ off ∧ off + 8 ≤ s.len then .ok (putLE 8 mem (s.ptr + off.toNat) v)
  else .error .goPanic

/-- The call `binary.LittleEndian.Uint64(s[off:])`. -/
def Uint64 (mem : Mem) (s : Slice) (off : Int) : Except Fault Nat :=
  if 0 ≤ off ∧ off + 8 ≤ s.len then .ok (getLE 8 mem (s.ptr + off.toNat))
  else .error .goPanic

/-! ## Data model -/

/-- The type `wasm.FunctionType`, the two fields read by `NewFunction`. -/
structure FunctionType where
  ParamNumInUint64 : Nat
  ResultNumInUint64 : Nat
  deriving DecidableEq, Repr

/-- The constant `wasm.ExternTypeFunc`. -/
def ExternTypeFunc : Nat := 0

/-- The type `wasm.Import`, the two fields read by `getTypeIDOf`; `Typ` is the
source's `Type` (a reserved word here). -/
structure Import where
  Typ : Nat
  DescFunc : Nat
  deriving DecidableEq, Repr

/-- The type `wasm.Module`, the fields read by this file. -/
structure Module where
  ImportFunctionCount : Nat
  IsHostModule : Bool
  FunctionSection : List Nat
  TypeSection : List FunctionType
  ImportSection : List Import
  deriving DecidableEq, Repr

/-- The type `wasm.MemoryInstance`: its own address and the header of `Buffer`. -/
structure MemoryInstance where
  addr : Nat
  Buffer : Slice
  deriving DecidableEq, Repr

/-- The type `wasm.ModuleInstance`: its own address (the value of a
`*wasm.ModuleInstance` pointing at it) and the fields read by this file.
`TypeIDsPtr` is the address of `TypeIDs[0]`; `Globals` and `Tables` hold the
pointers stored in the slices. -/
structure ModuleInstance where
  addr : Nat
  Source : Module
  TypeIDs : List Nat
  TypeIDsPtr : Nat
  MemoryInstance : Option MemoryInstance
  Globals : List Nat
  Tables : List Nat
  deriving DecidableEq, Repr

/-- Modelled from the spec: the Offset Table (`wazevoapi.ModuleContextOffsetData`,
declared outside this file): for each logical field of the runtime context
buffer its byte offset, negative when the field is absent. -/
structure ModuleContextOffsetData where
  TotalSize : Int
  ModuleInstanceOffset : Int
  LocalMemoryBegin : Int
  ImportedMemoryBegin : Int
  ImportedFunctionsBegin : Int
  GlobalsBegin : Int
  TypeIDs1stElement : Int
  TablesBegin : Int
  BeforeListenerTrampolines1stElement : Int
  AfterListenerTrampolines1stElement : Int
  deriving DecidableEq, Repr

/-- Modelled from the spec: `ImportedFunctionOffset` (declared outside this
file) gives the positions of the (code address, context address, type id)
triple of import slot `i`: three consecutive 8-byte fields of a 24-byte slot. -/
def ModuleContextOffsetData.ImportedFunctionOffset (o : ModuleContextOffsetData)
    (i : Nat) : Int × Int × Int :=
  let base := o.ImportedFunctionsBegin + (i : Int) * 24
  (base, base + 8, base + 16)

/-- The shared runtime-support entry points of a compiled module. -/
structure sharedFunctions where
  memoryGrowExecutable : Slice
  stackGrowExecutable : Slice
  checkModuleExitCode : Slice
  tableGrowExecutable : Slice
  refFuncExecutable : Slice
  deriving DecidableEq, Repr

/-- The Compiled Artifact (`compiledModule`, declared outside this file), the
fields read by this file. -/
structure compiledModule where
  executable : Slice
  functionOffsets : List Int
  offsets : ModuleContextOffsetData
  entryPreambles : List Nat
  listenerBeforeTrampolines : Slice
  listenerAfterTrampolines : Slice
  shared : sharedFunctions
  deriving DecidableEq, Repr

/-- The struct `functionInstance`. -/
structure functionInstance where
  executable : Nat
  moduleContextOpaquePtr : Nat
  typeID : Nat
  indexInModule : Nat
  deriving DecidableEq, Repr

/-- The struct `importedFunction`; `me` is nil until the slot is resolved. -/
structure importedFunction where
  me : Option Nat
  indexInModule : Nat
  deriving DecidableEq, Repr

/-- The struct `moduleEngine`. Field `opaqueBuf` is the source's `opaque`
(a reserved word here): the header of the context buffer, whose bytes live in
`Mem`; `parent` and `module` are the pointees of the source's pointers, which
this file never mutates. -/
structure moduleEngine where
  opaquePtr : Nat
  parent : compiledModule
  module : ModuleInstance
  opaqueBuf : Slice
  localFunctionInstances : List Nat
  importedFunctions : List importedFunction
  deriving DecidableEq, Repr

/-- The heap: raw memory and the engines, an engine pointer being a position in
`engines`. -/
structure World where
  mem : Mem
  engines : List moduleEngine

/-- Dereference an engine pointer. -/
def World.engine (w : World) (m : Nat) : Except Fault moduleEngine :=
  match w.engines[m]? with
  | some e => .ok e
  | none => .error .goPanic

/-- The type `wasm.TableInstance`, the fields read by `LookupFunction`; `Typ` is
the source's `Type` (a reserved word here). -/
structure TableInstance where
  References : List Nat
  Typ : Nat
  deriving DecidableEq, Repr

/-- The constant `wasm.RefTypeFuncref`. -/
def RefTypeFuncref : Nat := 0x70

/-! ## Raw-pointer decoding -/

/-- The function `functionFromUintptr`: read a `functionInstance` at `ptr`. On
the 64-bit little-endian targets of this backend the struct is 24 bytes:
`executable` at 0, `moduleContextOpaquePtr` at 8, `typeID` (uint32) at 16 and
`indexInModule` (uint32) at 20. -/
def functionFromUintptr (mem : Mem) (ptr : Nat) : functionInstance :=
  { executable := getLE 8 mem ptr
    moduleContextOpaquePtr := getLE 8 mem (ptr + 8)
    typeID := getLE 4 mem (ptr + 16)
    indexInModule := getLE 4 mem (ptr + 20) }

/-- Store a `functionInstance` at `ptr`, in the layout `functionFromUintptr`
reads. -/
def storeFunctionInstance (mem : Mem) (ptr : Nat) (f : functionInstance) : Mem :=
  putLE 4 (putLE 4 (putLE 8 (putLE 8 mem ptr f.executable)
    (ptr + 8) f.moduleContextOpaquePtr) (ptr + 16) f.typeID) (ptr + 20) f.indexInModule

/-- The function `moduleInstanceFromOpaquePtr`: the pointer stored in the first
8 bytes at `ptr`. The source dereferences `ptr`, so a nil `ptr` is a Go
run-time panic. -/
def moduleInstanceFromOpaquePtr (mem : Mem) (ptr : Nat) : Except Fault Nat :=
  if ptr = 0 then .error .goPanic else .ok (getLE 8 mem ptr)

/-! ## Indirect call dispatcher -/

/-- The method `LookupFunction`. The length of `References` is converted to
uint32 as in the source; the slot read is a checked Go index; the context
pointer of the function instance is dereferenced, a nil one being a Go
run-time panic. The table `t` is the pointee of the source's table pointer,
taken non-nil. -/
def LookupFunction (mem : Mem) (t : TableInstance) (typeId tableOffset : Nat) :
    Except Fault (Nat × Nat) :=
  if tableOffset ≥ t.References.length % 2 ^ 32 ∨ t.Typ ≠ RefTypeFuncref then
    .error .ErrRuntimeInvalidTableAccess
  else
    match t.References[tableOffset]? with
    | none => .error .goPanic
    | some rawPtr =>
      if rawPtr = 0 then .error .ErrRuntimeInvalidTableAccess
      else
        let tf := functionFromUintptr mem rawPtr
        if tf.typeID ≠ typeId then .error .ErrRuntimeIndirectCallTypeMismatch
        else
          match moduleInstanceFromOpaquePtr mem tf.moduleContextOpaquePtr with
          | .error e => .error e
          | .ok inst => .ok (inst, tf.indexInModule)

/-! ## Context builder -/

/-- A checked Go index `l[i]`. -/
def goIndex {α : Type} (l : List α) (i : Nat) : Except Fault α :=
  match l[i]? with
  | some x => .ok x
  | none => .error .goPanic

/-- The function `putLocalMemory`. -/
def putLocalMemory (mem : Mem) (opaqueBuf : Slice) (offset : Int)
    (memInst : Option MemoryInstance) : Except Fault Mem :=
  match memInst with
  | none => .error .goPanic
  | some mi =>
    let s := mi.Buffer.len
    let b := if mi.Buffer.len > 0 then mi.Buffer.ptr else 0
    match PutUint64 mem opaqueBuf offset b with
    | .error e => .error e
    | .ok mem1 => PutUint64 mem1 opaqueBuf (offset + 8) s

/-- The loops of `setupOpaque` over `inst.Globals` and `inst.Tables`: one
pointer per element, the offset advancing by 8. -/
def putPointers (opaqueBuf : Slice) : Mem → Int → List Nat → Except Fault Mem
  | mem, _, [] => .ok mem
  | mem, off, g :: gs =>
    match PutUint64 mem opaqueBuf off g with
    | .error e => .error e
    | .ok mem1 => putPointers opaqueBuf mem1 (off + 8) gs

/-- The block of `setupOpaque` guarded by `offsets.LocalMemoryBegin >= 0`. -/
def setupOpaque.localMemory (mem : Mem) (m : moduleEngine) : Except Fault Mem :=
  if m.parent.offsets.LocalMemoryBegin ≥ 0 then
    putLocalMemory mem m.opaqueBuf m.parent.offsets.LocalMemoryBegin m.module.MemoryInstance
  else .ok mem

/-- The block of `setupOpaque` guarded by `offsets.GlobalsBegin >= 0`. -/
def setupOpaque.globals (mem : Mem) (m : moduleEngine) : Except Fault Mem :=
  if m.parent.offsets.GlobalsBegin ≥ 0 then
    putPointers m.opaqueBuf mem m.parent.offsets.GlobalsBegin m.module.Globals
  else .ok mem

/-- The write of `&inst.TypeIDs[0]`, guarded by `len(inst.TypeIDs) > 0`. -/
def setupOpaque.typeIDs (mem : Mem) (m : moduleEngine) : Except Fault Mem :=
  if m.module.TypeIDs.length > 0 then
    PutUint64 mem m.opaqueBuf m.parent.offsets.TypeIDs1stElement m.module.TypeIDsPtr
  else .ok mem

/-- The block of `setupOpaque` guarded by `offsets.TablesBegin >= 0`. -/
def setupOpaque.tables (mem : Mem) (m : moduleEngine) : Except Fault Mem :=
  if m.parent.offsets.TablesBegin ≥ 0 then
    match setupOpaque.typeIDs mem m with
    | .error e => .error e
    | .ok mem1 => putPointers m.opaqueBuf mem1 m.parent.offsets.TablesBegin m.module.Tables
  else .ok mem

/-- One listener block of `setupOpaque`: when `off` is present, write the
address of element 0 of `trampolines` at `off`. -/
def setupOpaque.listener (mem : Mem) (m : moduleEngine) (off : Int) (trampolines : Slice) :
    Except Fault Mem :=
  if off ≥ 0 then
    match trampolines.addrOf 0 with
    | .error e => .error e
    | .ok a => PutUint64 mem m.opaqueBuf off a
  else .ok mem

/-- The two listener blocks of `setupOpaque`. -/
def setupOpaque.listeners (mem : Mem) (m : moduleEngine) : Except Fault Mem :=
  match setupOpaque.listener mem m m.parent.offsets.BeforeListenerTrampolines1stElement
      m.parent.listenerBeforeTrampolines with
  | .error e => .error e
  | .ok mem1 =>
    setupOpaque.listener mem1 m m.parent.offsets.AfterListenerTrampolines1stElement
      m.parent.listenerAfterTrampolines

/-- The method `setupOpaque`; it writes memory only. -/
def setupOpaque (mem : Mem) (m : moduleEngine) : Except Fault Mem :=
  match PutUint64 mem m.opaqueBuf m.parent.offsets.ModuleInstanceOffset m.module.addr with
  | .error e => .error e
  | .ok mem1 =>
    match setupOpaque.localMemory mem1 m with
    | .error e => .error e
    | .ok mem2 =>
      match setupOpaque.globals mem2 m with
      | .error e => .error e
      | .ok mem3 =>
        match setupOpaque.tables mem3 m with
        | .error e => .error e
        | .ok mem4 => setupOpaque.listeners mem4 m

/-- The method `DoneInstantiation`. -/
def DoneInstantiation (w : World) (m : Nat) : Except Fault World :=
  match w.engine m with
  | .error e => .error e
  | .ok me =>
    if !me.module.Source.IsHostModule then
      match setupOpaque w.mem me with
      | .error e => .error e
      | .ok mem1 => .ok { w with mem := mem1 }
    else .ok w

/-! ## Import resolver -/

/-- The loop of `getTypeIDOf` over `source.ImportSection`, with the counter
`cnt`; its value is the final `typeIndex` (0 when no entry matches). -/
def getTypeIDOf.scan (funcIndex : Nat) : List Import → Nat → Nat
  | [], _ => 0
  | imp :: rest, cnt =>
    if imp.Typ = ExternTypeFunc then
      if cnt = funcIndex then imp.DescFunc
      else getTypeIDOf.scan funcIndex rest (cnt + 1)
    else getTypeIDOf.scan funcIndex rest cnt

/-- The function `getTypeIDOf`. -/
def getTypeIDOf (funcIndex : Nat) (m : ModuleInstance) : Except Fault Nat :=
  let source := m.Source
  if funcIndex ≥ source.ImportFunctionCount then
    match goIndex source.FunctionSection (funcIndex - source.ImportFunctionCount) with
    | .error e => .error e
    | .ok typeIndex => goIndex m.TypeIDs typeIndex
  else
    goIndex m.TypeIDs (getTypeIDOf.scan funcIndex source.ImportSection 0)

/-- The method `ResolveImportedFunction`, with importer `m` and provider `imp`;
`fuel` bounds the depth of the recursion through re-exports. -/
def ResolveImportedFunction : Nat → World → Nat → Nat → Nat → Nat → Except Fault World
  | 0, _, _, _, _, _ => .error .outOfFuel
  | fuel + 1, w, m, index, indexInImportedModule, imp =>
    match w.engine m, w.engine imp with
    | .error e, _ => .error e
    | _, .error e => .error e
    | .ok me, .ok importedME =>
      let (executableOffset, moduleCtxOffset, typeIDOffset) :=
        me.parent.offsets.ImportedFunctionOffset index
      if indexInImportedModule ≥ importedME.importedFunctions.length then
        let localIndex := indexInImportedModule - importedME.importedFunctions.length
        match goIndex importedME.parent.functionOffsets localIndex with
        | .error e => .error e
        | .ok offset =>
        match getTypeIDOf localIndex importedME.module with
        | .error e => .error e
        | .ok typeID =>
        match importedME.parent.executable.addrOf offset with
        | .error e => .error e
        | .ok executable =>
        match PutUint64 w.mem me.opaqueBuf executableOffset executable with
        | .error e => .error e
        | .ok mem1 =>
        match PutUint64 mem1 me.opaqueBuf moduleCtxOffset importedME.opaquePtr with
        | .error e => .error e
        | .ok mem2 =>
        match PutUint64 mem2 me.opaqueBuf typeIDOffset typeID with
        | .error e => .error e
        | .ok mem3 =>
          if index < me.importedFunctions.length then
            .ok { mem := mem3
                  engines := w.engines.set m
                    { me with importedFunctions :=
                        me.importedFunctions.set index ⟨some imp, localIndex⟩ } }
          else .error .goPanic
      else
        match goIndex importedME.importedFunctions indexInImportedModule with
        | .error e => .error e
        | .ok imported =>
          match imported.me with
          | none => .error .goPanic
          | some provider =>
            ResolveImportedFunction fuel w m index imported.indexInModule provider

/-- The first half of `ResolveImportedMemory`: the pair (`memInstPtr`,
`memOwnerOpaquePtr`) taken from the provider. -/
def ResolveImportedMemory.owner (mem : Mem) (importedME : moduleEngine) :
    Except Fault (Nat × Nat) :=
  let offs := importedME.parent.offsets
  if offs.ImportedMemoryBegin ≥ 0 then
    match Uint64 mem importedME.opaqueBuf offs.ImportedMemoryBegin with
    | .error e => .error e
    | .ok a =>
      match Uint64 mem importedME.opaqueBuf (offs.ImportedMemoryBegin + 8) with
      | .error e => .error e
      | .ok b => .ok (a, b)
  else
    .ok ((match importedME.module.MemoryInstance with
          | some mi => mi.addr
          | none => 0), importedME.opaquePtr)

/-- The method `ResolveImportedMemory`, with importer `m` and provider `imp`. -/
def ResolveImportedMemory (w : World) (m imp : Nat) : Except Fault World :=
  match w.engine m, w.engine imp with
  | .error e, _ => .error e
  | _, .error e => .error e
  | .ok me, .ok importedME =>
    match ResolveImportedMemory.owner w.mem importedME with
    | .error e => .error e
    | .ok (memInstPtr, memOwnerOpaquePtr) =>
      let offset := me.parent.offsets.ImportedMemoryBegin
      match PutUint64 w.mem me.opaqueBuf offset memInstPtr with
      | .error e => .error e
      | .ok mem1 =>
        match PutUint64 mem1 me.opaqueBuf (offset + 8) memOwnerOpaquePtr with
        | .error e => .error e
        | .ok mem2 => .ok { w with mem := mem2 }

/-! ## Function instances and callables -/

/-- The method `FunctionInstanceReference`. For a local function the source
allocates a `functionInstance`; `lf` is the address the allocator returns for
it. The result is the reference and the new heap. -/
def FunctionInstanceReference (w : World) (m funcIndex lf : Nat) :
    Except Fault (Nat × World) :=
  match w.engine m with
  | .error e => .error e
  | .ok me =>
    if funcIndex < me.module.Source.ImportFunctionCount then
      match me.opaqueBuf.addrOf (me.parent.offsets.ImportedFunctionOffset funcIndex).1 with
      | .error e => .error e
      | .ok a => .ok (a, w)
    else
      let localIndex := funcIndex - me.module.Source.ImportFunctionCount
      match goIndex me.parent.functionOffsets localIndex with
      | .error e => .error e
      | .ok offset =>
      match me.parent.executable.addrOf offset with
      | .error e => .error e
      | .ok executable =>
      match goIndex me.module.Source.FunctionSection localIndex with
      | .error e => .error e
      | .ok typeIndex =>
      match goIndex me.module.TypeIDs typeIndex with
      | .error e => .error e
      | .ok typeID =>
        let f : functionInstance :=
          { executable := executable
            moduleContextOpaquePtr := me.opaquePtr
            typeID := typeID
            indexInModule := funcIndex }
        .ok (lf,
          { mem := storeFunctionInstance w.mem lf f
            engines := w.engines.set m
              { me with localFunctionInstances := me.localFunctionInstances ++ [lf] } })

/-- The struct `callEngine` (declared outside this file), the fields assigned by
`NewFunction`; `parent` is the owning engine. -/
structure callEngine where
  indexInModule : Nat
  executable : Nat
  parent : Nat
  preambleExecutable : Nat
  sizeOfParamResultSlice : Nat
  requiredParams : Nat
  numberOfResults : Nat
  memoryGrowTrampolineAddress : Nat
  stackGrowCallTrampolineAddress : Nat
  checkModuleExitCodeTrampolineAddress : Nat
  tableGrowTrampolineAddress : Nat
  refFuncTrampolineAddress : Nat
  deriving DecidableEq, Repr

/-- The debugging constant `wazevoapi.PrintMachineCodeHexPerFunctionDisassemblable`
(declared outside this file), off in every build that runs functions. -/
def PrintMachineCodeHexPerFunctionDisassemblable : Bool := false

/-- The method `NewFunction` up to its call of `ce.init()`; `fuel` bounds the
depth of the recursion through imported functions. -/
def NewFunction : Nat → World → Nat → Nat → Except Fault callEngine
  | 0, _, _, _ => .error .outOfFuel
  | fuel + 1, w, m, index =>
    if PrintMachineCodeHexPerFunctionDisassemblable then .error .goPanic
    else
    match w.engine m with
    | .error e => .error e
    | .ok me =>
      if index < me.module.Source.ImportFunctionCount then
        match goIndex me.importedFunctions index with
        | .error e => .error e
        | .ok imported =>
          match imported.me with
          | none => .error .goPanic
          | some provider => NewFunction fuel w provider imported.indexInModule
      else
        let localIndex := index - me.module.Source.ImportFunctionCount
        let src := me.module.Source
        match goIndex src.FunctionSection localIndex with
        | .error e => .error e
        | .ok typIndex =>
        match goIndex src.TypeSection typIndex with
        | .error e => .error e
        | .ok typ =>
        let sizeOfParamResultSlice :=
          if typ.ParamNumInUint64 > typ.ResultNumInUint64 then typ.ParamNumInUint64
          else typ.ResultNumInUint64
        let p := me.parent
        match goIndex p.functionOffsets localIndex with
        | .error e => .error e
        | .ok offset =>
        match p.executable.addrOf offset with
        | .error e => .error e
        | .ok executable =>
        match goIndex p.entryPreambles typIndex with
        | .error e => .error e
        | .ok preamble =>
        match p.shared.memoryGrowExecutable.addrOf 0,
              p.shared.stackGrowExecutable.addrOf 0,
              p.shared.checkModuleExitCode.addrOf 0,
              p.shared.tableGrowExecutable.addrOf 0,
              p.shared.refFuncExecutable.addrOf 0 with
        | .ok a1, .ok a2, .ok a3, .ok a4, .ok a5 =>
          .ok { indexInModule := index
                executable := executable
                parent := m
                preambleExecutable := preamble
                sizeOfParamResultSlice := sizeOfParamResultSlice
                requiredParams := typ.ParamNumInUint64
                numberOfResults := typ.ResultNumInUint64
                memoryGrowTrampolineAddress := a1
                stackGrowCallTrampolineAddress := a2
                checkModuleExitCodeTrampolineAddress := a3
                tableGrowTrampolineAddress := a4
                refFuncTrampolineAddress := a5 }
        | _, _, _, _, _ => .error .goPanic

/-- Equality of results is decidable. -/
instance instDecidableEqExcept {α : Type} [DecidableEq α] : DecidableEq (Except Fault α) :=
  fun a b =>
    match a, b with
    | .ok x, .ok y =>
      if h : x = y then isTrue (by rw [h]) else isFalse (fun h2 => h (Except.ok.inj h2))
    | .error x, .error y =>
      if h : x = y then isTrue (by rw [h]) else isFalse (fun h2 => h (Except.error.inj h2))
    | .ok _, .error _ => isFalse (fun h => Except.noConfusion h)
    | .error _, .ok _ => isFalse (fun h => Except.noConfusion h)

/-! ## Well-formedness conditions used by the theorems -/

/-- Every field that `setupOpaque` writes after the self-instance pointer is
absent or starts at byte `lo` or later. -/
def ModuleContextOffsetData.laterFieldsFrom (o : ModuleContextOffsetData) (lo : Int) : Prop :=
  (o.LocalMemoryBegin < 0 ∨ lo ≤ o.LocalMemoryBegin) ∧
  (o.GlobalsBegin < 0 ∨ lo ≤ o.GlobalsBegin) ∧
  (o.TypeIDs1stElement < 0 ∨ lo ≤ o.TypeIDs1stElement) ∧
  (o.TablesBegin < 0 ∨ lo ≤ o.TablesBegin) ∧
  (o.BeforeListenerTrampolines1stElement < 0 ∨ lo ≤ o.BeforeListenerTrampolines1stElement) ∧
  (o.AfterListenerTrampolines1stElement < 0 ∨ lo ≤ o.AfterListenerTrampolines1stElement)

instance (o : ModuleContextOffsetData) (lo : Int) : Decidable (o.laterFieldsFrom lo) := by
  unfold ModuleContextOffsetData.laterFieldsFrom
  infer_instance

/-- An address the allocator may return for a new `functionInstance`: not nil,
and its 24 bytes clear of every function instance that some engine's cache
`localFunctionInstances` still references (the cache keeps them alive). -/
def World.allocatable (w : World) (lf : Nat) : Prop :=
  lf ≠ 0 ∧ ∀ e ∈ w.engines, ∀ a ∈ e.localFunctionInstances, lf + 24 ≤ a ∨ a + 24 ≤ lf

instance (w : World) (lf : Nat) : Decidable (w.allocatable lf) := by
  unfold World.allocatable
  infer_instance

/-- Extent (first byte, size in bytes) of a field of the context buffer that
starts at offset `start`; an absent field, of negative offset, has size 0. -/
def fieldExtent (start size : Int) : Int × Int :=
  (start, if 0 ≤ start then size else 0)

/-- Two extents share no byte. -/
def disjointExtents (a b : Int × Int) : Prop :=
  a.2 ≤ 0 ∨ b.2 ≤ 0 ∨ a.1 + a.2 ≤ b.1 ∨ b.1 + b.2 ≤ a.1

instance (a b : Int × Int) : Decidable (disjointExtents a b) := by
  unfold disjointExtents
  infer_instance

/-- Address `x` lies in extent `f` of the buffer at `ptr`. -/
def insideExtent (ptr : Nat) (f : Int × Int) (x : Nat) : Prop :=
  (ptr : Int) + f.1 ≤ x ∧ (x : Int) < ptr + f.1 + f.2

/-- Address `x` lies outside extent `f` of the buffer at `ptr`. -/
def outsideExtent (ptr : Nat) (f : Int × Int) (x : Nat) : Prop :=
  (x : Int) < ptr + f.1 ∨ (ptr : Int) + f.1 + f.2 ≤ x

instance (ptr : Nat) (f : Int × Int) (x : Nat) : Decidable (insideExtent ptr f x) := by
  unfold insideExtent
  infer_instance

instance (ptr : Nat) (f : Int × Int) (x : Nat) : Decidable (outsideExtent ptr f x) := by
  unfold outsideExtent
  infer_instance

/-- The fields of the context buffer of an engine, in the order of the layout
comment of the source: self pointer, local memory, imported memory, imported
functions (24 bytes per import), globals (8 bytes each), type-id pointer,
tables (8 bytes each), and the two listener trampoline pointers. -/
def moduleEngine.fields (m : moduleEngine) : List (Int × Int) :=
  [ fieldExtent m.parent.offsets.ModuleInstanceOffset 8,
    fieldExtent m.parent.offsets.LocalMemoryBegin 16,
    fieldExtent m.parent.offsets.ImportedMemoryBegin 16,
    fieldExtent m.parent.offsets.ImportedFunctionsBegin
      (24 * m.module.Source.ImportFunctionCount),
    fieldExtent m.parent.offsets.GlobalsBegin (8 * m.module.Globals.length),
    fieldExtent m.parent.offsets.TypeIDs1stElement 8,
    fieldExtent m.parent.offsets.TablesBegin (8 * m.module.Tables.length),
    fieldExtent m.parent.offsets.BeforeListenerTrampolines1stElement 8,
    fieldExtent m.parent.offsets.AfterListenerTrampolines1stElement 8 ]

/-- The fields of the Offset Table of an engine are pairwise non-overlapping. -/
def moduleEngine.fieldsDisjoint (m : moduleEngine) : Prop :=
  m.fields.Pairwise disjointExtents

instance (m : moduleEngine) : Decidable m.fieldsDisjoint := by
  unfold moduleEngine.fieldsDisjoint
  infer_instance

/-! ## Provider graph and re-export chains -/

/-- Engine `y` is the provider named by some Imported Function Descriptor of
engine `x`. -/
def providerOf (w : World) (y x : Nat) : Prop :=
  ∃ e d, w.engines[x]? = some e ∧ d ∈ e.importedFunctions ∧ d.me = some y

/-- The provider relation has no cycle. -/
def acyclicProviders (w : World) : Prop :=
  ∀ x, ¬ Relation.TransGen (providerOf w) x x

/-- One link of a re-export chain: function `a.2` of engine `a.1` is an import
whose descriptor names function `b.2` of engine `b.1`. -/
def chainStep (w : World) (a b : Nat × Nat) : Prop :=
  ∃ e, w.engines[a.1]? = some e ∧ e.importedFunctions[a.2]? = some ⟨some b.1, b.2⟩

/-- Every descriptor consulted on the chain that starts at function `j` of
engine `p` is resolved: it names an engine of the heap. -/
def chainResolved (w : World) (p j : Nat) : Prop :=
  ∀ x i e d, Relation.ReflTransGen (chainStep w) (p, j) (x, i) →
    w.engines[x]? = some e → e.importedFunctions[i]? = some d →
    ∃ y, d.me = some y ∧ y < w.engines.length

/-- A descriptor names no engine or an engine of index below `x`. -/
def importedFunction.providerBelow (d : importedFunction) (x : Nat) : Prop :=
  match d.me with
  | some y => y < x
  | none => True

instance (d : importedFunction) (x : Nat) : Decidable (d.providerBelow x) := by
  unfold importedFunction.providerBelow
  split <;> infer_instance

/-- Every descriptor of the heap names an engine of lower index than its owner:
a checkable topological order of the provider graph. -/
def providersBelow (w : World) : Prop :=
  ∀ x, x < w.engines.length →
    ∀ d ∈ (match w.engines[x]? with
        | some e => e.importedFunctions
        | none => []), d.providerBelow x

instance (w : World) : Decidable (providersBelow w) := by
  unfold providersBelow
  infer_instance

/-- A checkable walk along the chain from function `j` of engine `p`: true when
within `fuel` links the chain ends and every descriptor on it names an engine
of the heap. -/
def chainWalk : Nat → World → Nat → Nat → Bool
  | 0, _, _, _ => false
  | fuel + 1, w, p, j =>
    match w.engines[p]? with
    | none => false
    | some e =>
      match e.importedFunctions[j]? with
      | none => true
      | some d =>
        match d.me with
        | none => false
        | some y => decide (y < w.engines.length) && chainWalk fuel w y d.indexInModule

/-! ## Observations on the context buffer -/

/-- The (code address, context address, type id) triple held in the context
buffer of engine `m` for import slot `s`, read at `ImportedFunctionOffset s`. -/
def importedFunctionTriple (w : World) (m s : Nat) : Except Fault (Nat × Nat × Nat) :=
  match w.engine m with
  | .error e => .error e
  | .ok me =>
    let (executableOffset, moduleCtxOffset, typeIDOffset) :=
      me.parent.offsets.ImportedFunctionOffset s
    match Uint64 w.mem me.opaqueBuf executableOffset with
    | .error e => .error e
    | .ok a =>
      match Uint64 w.mem me.opaqueBuf moduleCtxOffset with
      | .error e => .error e
      | .ok b =>
        match Uint64 w.mem me.opaqueBuf typeIDOffset with
        | .error e => .error e
        | .ok c => .ok (a, b, c)

/-- The Imported Function Descriptor of engine `m` for import slot `s`. -/
def importedDescriptor (w : World) (m s : Nat) : Except Fault importedFunction :=
  match w.engine m with
  | .error e => .error e
  | .ok me => goIndex me.importedFunctions s

/-- The (owner instance address, owner context address) pair held in the
context buffer of engine `m` at `ImportedMemoryBegin`. -/
def importedMemoryPair (w : World) (m : Nat) : Except Fault (Nat × Nat) :=
  match w.engine m with
  | .error e => .error e
  | .ok me =>
    match Uint64 w.mem me.opaqueBuf me.parent.offsets.ImportedMemoryBegin with
    | .error e => .error e
    | .ok a =>
      match Uint64 w.mem me.opaqueBuf (me.parent.offsets.ImportedMemoryBegin + 8) with
      | .error e => .error e
      | .ok b => .ok (a, b)

/-- Resolve imported memory along a chain: each engine of the list in turn
calls `ResolveImportedMemory` on the engine before it, the first on `prev`. -/
def resolveMemoryChain : World → Nat → List Nat → Except Fault World
  | w, _, [] => .ok w
  | w, prev, m :: rest =>
    match ResolveImportedMemory w m prev with
    | .error e => .error e
    | .ok w1 => resolveMemoryChain w1 m rest

/-- Engine `m` exists, its memory is imported, and its context buffer has room
for the 16 bytes of the imported-memory field. -/
def importsMemory (w : World) (m : Nat) : Prop :=
  match w.engines[m]? with
  | some me =>
    0 ≤ me.parent.offsets.ImportedMemoryBegin ∧
      me.parent.offsets.ImportedMemoryBegin + 16 ≤ me.opaqueBuf.len
  | none => False

instance (w : World) (m : Nat) : Decidable (importsMemory w m) := by
  unfold importsMemory
  split <;> infer_instance

/-- The function-kind entries of an import section, in import-section order;
entries of other kinds are dropped. This follows the wording of the
specification, not the loop of `getTypeIDOf`. -/
def functionImports (imports : List Import) : List Import :=
  imports.filter (fun i => decide (i.Typ = ExternTypeFunc))

/-! ## Concrete heaps -/

namespace Example

/-- The heap a call returned, or `d` when the call faulted. -/
def heapOf (d : World) : Except Fault World → World
  | .ok w => w
  | .error _ => d

/-- The heap returned next to a reference, or `d` when the call faulted. -/
def refHeapOf (d : World) : Except Fault (Nat × World) → World
  | .ok (_, w) => w
  | .error _ => d

/-- An Offset Table with the self-instance pointer only. -/
def selfOnly : ModuleContextOffsetData :=
  { TotalSize := 8, ModuleInstanceOffset := 0, LocalMemoryBegin := -1,
    ImportedMemoryBegin := -1, ImportedFunctionsBegin := -1, GlobalsBegin := -1,
    TypeIDs1stElement := -1, TablesBegin := -1,
    BeforeListenerTrampolines1stElement := -1, AfterListenerTrampolines1stElement := -1 }

/-- Shared entry points, one byte of code each. -/
def trampolines : sharedFunctions :=
  ⟨⟨900, 1⟩, ⟨901, 1⟩, ⟨902, 1⟩, ⟨903, 1⟩, ⟨904, 1⟩⟩

/-- A provider with no import and three local functions, of type ids 7, 7, 9. -/
def provider : moduleEngine :=
  { opaquePtr := 1000
    parent :=
      { executable := ⟨20000, 300⟩, functionOffsets := [0, 100, 200], offsets := selfOnly
        entryPreambles := [21000, 21100], listenerBeforeTrampolines := ⟨0, 0⟩
        listenerAfterTrampolines := ⟨0, 0⟩, shared := trampolines }
    module :=
      { addr := 5000
        Source :=
          { ImportFunctionCount := 0, IsHostModule := false, FunctionSection := [0, 0, 1]
            TypeSection := [⟨0, 0⟩, ⟨2, 1⟩], ImportSection := [] }
        TypeIDs := [7, 9], TypeIDsPtr := 5500, MemoryInstance := some ⟨5600, ⟨70000, 65536⟩⟩
        Globals := [], Tables := [] }
    opaqueBuf := ⟨1000, 8⟩
    localFunctionInstances := []
    importedFunctions := [] }

/-- A heap holding the provider alone, memory zeroed. -/
def heap0 : World := { mem := fun _ => 0, engines := [provider] }

/-- The heap after `DoneInstantiation` on the provider. -/
def heap1 : World := heapOf heap0 (DoneInstantiation heap0 0)

/-- The heap after a reference to the provider's function 2 was vended, the
allocator placing the function instance at 40000. -/
def heap2 : World := refHeapOf heap1 (FunctionInstanceReference heap1 0 2 40000)

/-- An Offset Table with the self-instance pointer and one imported-function
slot at byte 8. -/
def selfAndImport : ModuleContextOffsetData :=
  { selfOnly with TotalSize := 32, ImportedFunctionsBegin := 8 }

/-- A module that imports one function (type index 0, type id 7) and defines two
local functions, both of type index 1 (type id 9); its flat function indices are
0 (the import), 1 and 2. -/
def reexporter : moduleEngine :=
  { opaquePtr := 2000
    parent :=
      { executable := ⟨30000, 200⟩, functionOffsets := [0, 100], offsets := selfAndImport
        entryPreambles := [31000, 31100], listenerBeforeTrampolines := ⟨0, 0⟩
        listenerAfterTrampolines := ⟨0, 0⟩, shared := trampolines }
    module :=
      { addr := 6000
        Source :=
          { ImportFunctionCount := 1, IsHostModule := false, FunctionSection := [1, 1]
            TypeSection := [⟨0, 0⟩, ⟨2, 1⟩], ImportSection := [⟨ExternTypeFunc, 0⟩] }
        TypeIDs := [7, 9], TypeIDsPtr := 6500, MemoryInstance := none
        Globals := [], Tables := [] }
    opaqueBuf := ⟨2000, 32⟩
    localFunctionInstances := []
    importedFunctions := [⟨none, 0⟩] }

/-- A module that imports one function of type index 1 (type id 9) and defines
none; `base` places its context buffer and `inst` its module instance. -/
def importer (base inst : Nat) : moduleEngine :=
  { opaquePtr := base
    parent :=
      { executable := ⟨inst + 100, 0⟩, functionOffsets := [], offsets := selfAndImport
        entryPreambles := [], listenerBeforeTrampolines := ⟨0, 0⟩
        listenerAfterTrampolines := ⟨0, 0⟩, shared := trampolines }
    module :=
      { addr := inst
        Source :=
          { ImportFunctionCount := 1, IsHostModule := false, FunctionSection := []
            TypeSection := [⟨0, 0⟩, ⟨2, 1⟩], ImportSection := [⟨ExternTypeFunc, 1⟩] }
        TypeIDs := [7, 9], TypeIDsPtr := inst + 500, MemoryInstance := none
        Globals := [], Tables := [] }
    opaqueBuf := ⟨base, 32⟩
    localFunctionInstances := []
    importedFunctions := [⟨none, 0⟩] }

/-- Four engines: 0 the provider, 1 the re-exporter, 2 and 3 two importers. -/
def graph0 : World :=
  { mem := fun _ => 0, engines := [provider, reexporter, importer 3000 7000, importer 4000 8000] }

/-- The provider is finalised; the re-exporter binds its import to the
provider's function 0 and is finalised. -/
def graph1 : World :=
  heapOf graph0 (DoneInstantiation (heapOf graph0 (ResolveImportedFunction 2
    (heapOf graph0 (DoneInstantiation graph0 0)) 1 0 0 0)) 1)

/-- Importer 2 binds its slot 0 to the provider's function 2 (type id 9) and is
finalised. -/
def boundToProvider : World :=
  heapOf graph1 (DoneInstantiation (heapOf graph1 (ResolveImportedFunction 2 graph1 2 0 2 0)) 2)

/-- The lookup of a one-slot function-reference table holding importer 2's
reference to its import 0, with expected type id 9. -/
def lookupImported : Except Fault (Nat × Nat) :=
  match FunctionInstanceReference boundToProvider 2 0 40000 with
  | .error e => .error e
  | .ok (ref, w) => LookupFunction w.mem ⟨[ref], RefTypeFuncref⟩ 9 0

/-- Importer 2 binds its slot 0 to the re-exporter's function 1, the first
function the re-exporter defines. -/
def boundToReexporter : World :=
  heapOf graph1 (ResolveImportedFunction 2 graph1 2 0 1 1)

/-- After that, importer 3 binds its slot 0 to importer 2's function 0. -/
def boundThroughChain : World :=
  heapOf boundToReexporter (ResolveImportedFunction 3 boundToReexporter 3 0 0 2)

/-- Instead, importer 3 binds its slot 0 to the re-exporter's function 1
directly. -/
def boundDirectly : World :=
  heapOf boundToReexporter (ResolveImportedFunction 3 boundToReexporter 3 0 1 1)

/-- An Offset Table with the self-instance pointer and the imported-memory
field at byte 8. -/
def selfAndMemory : ModuleContextOffsetData :=
  { selfOnly with TotalSize := 24, ImportedMemoryBegin := 8 }

/-- A module that imports its memory and defines nothing else. -/
def memoryImporter (base inst : Nat) : moduleEngine :=
  { opaquePtr := base
    parent :=
      { executable := ⟨inst + 100, 0⟩, functionOffsets := [], offsets := selfAndMemory
        entryPreambles := [], listenerBeforeTrampolines := ⟨0, 0⟩
        listenerAfterTrampolines := ⟨0, 0⟩, shared := trampolines }
    module :=
      { addr := inst
        Source :=
          { ImportFunctionCount := 0, IsHostModule := false, FunctionSection := []
            TypeSection := [], ImportSection := [⟨2, 0⟩] }
        TypeIDs := [], TypeIDsPtr := 0, MemoryInstance := some ⟨5600, ⟨70000, 65536⟩⟩
        Globals := [], Tables := [] }
    opaqueBuf := ⟨base, 24⟩
    localFunctionInstances := []
    importedFunctions := [] }

/-- Three engines: 0 the provider, which owns the memory instance at 5600, and
two modules importing memory, 1 from 0 and 2 from 1. -/
def memoryGraph : World :=
  { mem := fun _ => 0
    engines := [provider, memoryImporter 3000 7000, memoryImporter 4000 8000] }

/-- An Offset Table with every field the context builder writes, and one slot
for an imported function: self pointer at 0, local memory at 8, the import slot
at 24, two globals at 48, the type-id pointer at 64, one table at 72, the
listener trampolines at 80 and 88. -/
def fullOffsets : ModuleContextOffsetData :=
  { TotalSize := 96, ModuleInstanceOffset := 0, LocalMemoryBegin := 8,
    ImportedMemoryBegin := -1, ImportedFunctionsBegin := 24, GlobalsBegin := 48,
    TypeIDs1stElement := 64, TablesBegin := 72,
    BeforeListenerTrampolines1stElement := 80, AfterListenerTrampolines1stElement := 88 }

/-- A module with local memory, one imported function, two globals, one table
and call listeners. -/
def full : moduleEngine :=
  { opaquePtr := 9000
    parent :=
      { executable := ⟨50000, 100⟩, functionOffsets := [0], offsets := fullOffsets
        entryPreambles := [51000, 51100], listenerBeforeTrampolines := ⟨52000, 2⟩
        listenerAfterTrampolines := ⟨53000, 2⟩, shared := trampolines }
    module :=
      { addr := 9500
        Source :=
          { ImportFunctionCount := 1, IsHostModule := false, FunctionSection := [1]
            TypeSection := [⟨0, 0⟩, ⟨2, 1⟩], ImportSection := [⟨2, 0⟩, ⟨ExternTypeFunc, 1⟩] }
        TypeIDs := [7, 9], TypeIDsPtr := 9600, MemoryInstance := some ⟨9700, ⟨80000, 65536⟩⟩
        Globals := [9800, 9810], Tables := [9900] }
    opaqueBuf := ⟨9000, 96⟩
    localFunctionInstances := []
    importedFunctions := [⟨none, 0⟩] }

/-- The same module with imported memory, at byte 8, in place of local memory. -/
def fullImporting : moduleEngine :=
  { full with
    parent :=
      { full.parent with
        offsets := { fullOffsets with LocalMemoryBegin := -1, ImportedMemoryBegin := 8 } } }

/-- A host module: the provider with `IsHostModule` set. -/
def hostEngine : moduleEngine :=
  { provider with
    module :=
      { provider.module with Source := { provider.module.Source with IsHostModule := true } } }

/-- A heap holding the host module, the full module and the full module whose
memory is imported; memory holds 1 in every byte. -/
def builderHeap : World :=
  { mem := fun _ => 1, engines := [hostEngine, full, fullImporting] }

/-- The heap after a second reference to the provider's function 2 was vended,
the allocator placing the new function instance at 40024. -/
def heap3 : World := refHeapOf heap2 (FunctionInstanceReference heap2 0 2 40024)

/-- The memory `setupOpaque` produces for the full module, from memory holding
1 in every byte. -/
def builtMem : Mem :=
  match setupOpaque (fun _ => 1) full with
  | .ok mem1 => mem1
  | .error _ => fun _ => 1

/-- An Offset Table with the self-instance pointer and two slots for imported
functions, at bytes 8 and 32. -/
def selfAndTwoImports : ModuleContextOffsetData :=
  { selfOnly with TotalSize := 56, ImportedFunctionsBegin := 8 }

/-- A module that imports two functions, of type ids 7 and 9, and defines
none. -/
def twoSlotImporter : moduleEngine :=
  { opaquePtr := 11000
    parent :=
      { executable := ⟨12100, 0⟩, functionOffsets := [], offsets := selfAndTwoImports
        entryPreambles := [], listenerBeforeTrampolines := ⟨0, 0⟩
        listenerAfterTrampolines := ⟨0, 0⟩, shared := trampolines }
    module :=
      { addr := 12000
        Source :=
          { ImportFunctionCount := 2, IsHostModule := false, FunctionSection := []
            TypeSection := [⟨0, 0⟩, ⟨2, 1⟩]
            ImportSection := [⟨ExternTypeFunc, 0⟩, ⟨ExternTypeFunc, 1⟩] }
        TypeIDs := [7, 9], TypeIDsPtr := 12500, MemoryInstance := none
        Globals := [], Tables := [] }
    opaqueBuf := ⟨11000, 56⟩
    localFunctionInstances := []
    importedFunctions := [⟨none, 0⟩, ⟨none, 0⟩] }

/-- Two engines: 0 the provider, 1 the module with two import slots. -/
def twoSlot0 : World :=
  { mem := fun _ => 0, engines := [provider, twoSlotImporter] }

/-- Slot 0 of engine 1 is bound to the provider's function 0. -/
def twoSlot1 : World := heapOf twoSlot0 (ResolveImportedFunction 1 twoSlot0 1 0 0 0)

/-- After that, slot 1 of engine 1 is bound to the provider's function 2. -/
def twoSlot2 : World := heapOf twoSlot1 (ResolveImportedFunction 1 twoSlot1 1 1 2 0)

/-- The full module without tables: `TablesBegin` is absent while the type-id
field keeps its place at byte 64. -/
def fullNoTables : moduleEngine :=
  { full with
    parent := { full.parent with offsets := { fullOffsets with TablesBegin := -1 } }
    module := { full.module with Tables := [] } }

/-- The memory `setupOpaque` produces for the full module without tables, from
memory holding 1 in every byte. -/
def builtNoTablesMem : Mem :=
  match setupOpaque (fun _ => 1) fullNoTables with
  | .ok mem1 => mem1
  | .error _ => fun _ => 1

end Example

/-! ## Lemmas on little-endian accesses -/

theorem putLE_outside (n : Nat) (mem : Mem) (a v x : Nat) (h : x < a ∨ a + n ≤ x) :
    putLE n mem a v x = mem x := by
  induction n generalizing mem a v with
  | zero => rfl
  | succ n ih =>
    simp only [putLE]
    rw [ih _ _ _ (by omega)]
    simp only [Mem.write]
    rw [if_neg (by omega)]

theorem getLE_congr (n : Nat) (m1 m2 : Mem) (a : Nat)
    (h : ∀ x, a ≤ x → x < a + n → m1 x = m2 x) : getLE n m1 a = getLE n m2 a := by
  induction n generalizing a with
  | zero => rfl
  | succ n ih =>
    simp only [getLE]
    rw [h a (le_refl a) (by omega), ih (a + 1) (fun x h1 h2 => h x (by omega) (by omega))]

theorem getLE_putLE_same (n : Nat) (mem : Mem) (a v : Nat) :
    getLE n (putLE n mem a v) a = v % 256 ^ n := by
  induction n generalizing mem a v with
  | zero => simp [getLE, Nat.mod_one]
  | succ n ih =>
    simp only [getLE, putLE]
    rw [ih, putLE_outside _ _ _ _ _ (Or.inl (Nat.lt_succ_self a))]
    simp only [Mem.write, if_true]
    rw [Nat.mod_mod, pow_succ', Nat.mod_mul]

theorem getLE_putLE_disjoint (k n : Nat) (mem : Mem) (a b v : Nat)
    (h : b + k ≤ a ∨ a + n ≤ b) : getLE k (putLE n mem a v) b = getLE k mem b := by
  apply getLE_congr
  intro x h1 h2
  exact putLE_outside n mem a v x (by omega)

theorem getLE_lt (n : Nat) (mem : Mem) (a : Nat) : getLE n mem a < 256 ^ n := by
  induction n generalizing a with
  | zero => simp [getLE]
  | succ n ih =>
    simp only [getLE, pow_succ]
    have h1 := ih (a + 1)
    have h2 : mem a % 256 < 256 := Nat.mod_lt _ (by norm_num)
    nlinarith

/-! ## Frame lemmas for buffer writes -/

theorem PutUint64_ok {mem mem1 : Mem} {s : Slice} {off : Int} {v : Nat}
    (h : PutUint64 mem s off v = .ok mem1) :
    (0 ≤ off ∧ off + 8 ≤ s.len) ∧ mem1 = putLE 8 mem (s.ptr + off.toNat) v := by
  unfold PutUint64 at h
  split at h
  · rename_i hb
    exact ⟨hb, (Except.ok.inj h).symm⟩
  · cases h

theorem PutUint64_frame {mem mem1 : Mem} {s : Slice} {off : Int} {v : Nat}
    (h : PutUint64 mem s off v = .ok mem1) (x : Nat)
    (hx : (x : Int) < s.ptr + off ∨ (s.ptr : Int) + off + 8 ≤ x) : mem1 x = mem x := by
  obtain ⟨hb, rfl⟩ := PutUint64_ok h
  apply putLE_outside
  omega

theorem PutUint64_read {mem mem1 : Mem} {s : Slice} {off : Int} {v : Nat}
    (h : PutUint64 mem s off v = .ok mem1) :
    getLE 8 mem1 (s.ptr + off.toNat) = v % 2 ^ 64 := by
  obtain ⟨_, rfl⟩ := PutUint64_ok h
  rw [getLE_putLE_same]
  norm_num

theorem Uint64_ok {mem : Mem} {s : Slice} {off : Int} (hb : 0 ≤ off ∧ off + 8 ≤ s.len) :
    Uint64 mem s off = .ok (getLE 8 mem (s.ptr + off.toNat)) := by
  unfold Uint64
  rw [if_pos hb]

theorem PutUint64_of_bounds (mem : Mem) (s : Slice) (off : Int) (v : Nat)
    (hb : 0 ≤ off ∧ off + 8 ≤ s.len) :
    PutUint64 mem s off v = .ok (putLE 8 mem (s.ptr + off.toNat) v) := by
  unfold PutUint64
  rw [if_pos hb]

theorem putPointers_frame {s : Slice} {l : List Nat} {mem mem1 : Mem} {off : Int}
    (h : putPointers s mem off l = .ok mem1) (x : Nat)
    (hx : (x : Int) < s.ptr + off ∨ (s.ptr : Int) + off + 8 * l.length ≤ x) :
    mem1 x = mem x := by
  induction l generalizing mem off with
  | nil =>
    simp only [putPointers] at h
    exact congrFun (Except.ok.inj h).symm x
  | cons g gs ih =>
    simp only [putPointers] at h
    cases hp : PutUint64 mem s off g with
    | error e => rw [hp] at h; cases h
    | ok mem2 =>
      rw [hp] at h
      simp only [List.length_cons, Nat.cast_add, Nat.cast_one] at hx
      rw [ih h (by omega), PutUint64_frame hp x (by omega)]

/-! ## The context builder keeps the self-instance pointer -/

theorem putLocalMemory_below {mem mem1 : Mem} {s : Slice} {off : Int}
    {mi : Option MemoryInstance} (h : putLocalMemory mem s off mi = .ok mem1) (x : Nat)
    (hx : (x : Int) < s.ptr + off) : mem1 x = mem x := by
  unfold putLocalMemory at h
  cases mi with
  | none => cases h
  | some mi =>
    simp only at h
    split at h
    · cases h
    · rename_i mem2 hp
      rw [PutUint64_frame h x (by omega), PutUint64_frame hp x (by omega)]

theorem setupOpaque.localMemory_below {mem mem1 : Mem} {m : moduleEngine} {lo : Int}
    (h : setupOpaque.localMemory mem m = .ok mem1)
    (hsep : m.parent.offsets.LocalMemoryBegin < 0 ∨ lo ≤ m.parent.offsets.LocalMemoryBegin)
    (x : Nat) (hx : (x : Int) < m.opaqueBuf.ptr + lo) : mem1 x = mem x := by
  unfold setupOpaque.localMemory at h
  split at h
  · exact putLocalMemory_below h x (by omega)
  · exact congrFun (Except.ok.inj h).symm x

theorem setupOpaque.globals_below {mem mem1 : Mem} {m : moduleEngine} {lo : Int}
    (h : setupOpaque.globals mem m = .ok mem1)
    (hsep : m.parent.offsets.GlobalsBegin < 0 ∨ lo ≤ m.parent.offsets.GlobalsBegin)
    (x : Nat) (hx : (x : Int) < m.opaqueBuf.ptr + lo) : mem1 x = mem x := by
  unfold setupOpaque.globals at h
  split at h
  · exact putPointers_frame h x (by omega)
  · exact congrFun (Except.ok.inj h).symm x

theorem setupOpaque.typeIDs_below {mem mem1 : Mem} {m : moduleEngine} {lo : Int}
    (h : setupOpaque.typeIDs mem m = .ok mem1)
    (hsep : m.parent.offsets.TypeIDs1stElement < 0 ∨ lo ≤ m.parent.offsets.TypeIDs1stElement)
    (x : Nat) (hx : (x : Int) < m.opaqueBuf.ptr + lo) : mem1 x = mem x := by
  unfold setupOpaque.typeIDs at h
  split at h
  · have hb := (PutUint64_ok h).1
    exact PutUint64_frame h x (by omega)
  · exact congrFun (Except.ok.inj h).symm x

theorem setupOpaque.tables_below {mem mem1 : Mem} {m : moduleEngine} {lo : Int}
    (h : setupOpaque.tables mem m = .ok mem1)
    (hsep1 : m.parent.offsets.TypeIDs1stElement < 0 ∨ lo ≤ m.parent.offsets.TypeIDs1stElement)
    (hsep2 : m.parent.offsets.TablesBegin < 0 ∨ lo ≤ m.parent.offsets.TablesBegin)
    (x : Nat) (hx : (x : Int) < m.opaqueBuf.ptr + lo) : mem1 x = mem x := by
  unfold setupOpaque.tables at h
  split at h
  · split at h
    · cases h
    · rename_i mem2 hp
      rw [putPointers_frame h x (by omega), setupOpaque.typeIDs_below hp hsep1 x hx]
  · exact congrFun (Except.ok.inj h).symm x

theorem setupOpaque.listener_below {mem mem1 : Mem} {m : moduleEngine} {off lo : Int}
    {tr : Slice} (h : setupOpaque.listener mem m off tr = .ok mem1)
    (hsep : off < 0 ∨ lo ≤ off)
    (x : Nat) (hx : (x : Int) < m.opaqueBuf.ptr + lo) : mem1 x = mem x := by
  unfold setupOpaque.listener at h
  split at h
  · split at h
    · cases h
    · exact PutUint64_frame h x (by omega)
  · exact congrFun (Except.ok.inj h).symm x

theorem setupOpaque.listeners_below {mem mem1 : Mem} {m : moduleEngine} {lo : Int}
    (h : setupOpaque.listeners mem m = .ok mem1)
    (hsep1 : m.parent.offsets.BeforeListenerTrampolines1stElement < 0 ∨
      lo ≤ m.parent.offsets.BeforeListenerTrampolines1stElement)
    (hsep2 : m.parent.offsets.AfterListenerTrampolines1stElement < 0 ∨
      lo ≤ m.parent.offsets.AfterListenerTrampolines1stElement)
    (x : Nat) (hx : (x : Int) < m.opaqueBuf.ptr + lo) : mem1 x = mem x := by
  unfold setupOpaque.listeners at h
  split at h
  · cases h
  · rename_i mem2 hp
    rw [setupOpaque.listener_below h hsep2 x hx, setupOpaque.listener_below hp hsep1 x hx]

/-- After `setupOpaque` the 8 bytes at `ModuleInstanceOffset` hold the address
of the module instance, provided the later fields start after them. -/
theorem setupOpaque_self {mem mem1 : Mem} {m : moduleEngine}
    (h : setupOpaque mem m = .ok mem1)
    (hsep : m.parent.offsets.laterFieldsFrom (m.parent.offsets.ModuleInstanceOffset + 8)) :
    getLE 8 mem1 (m.opaqueBuf.ptr + m.parent.offsets.ModuleInstanceOffset.toNat) =
      m.module.addr % 2 ^ 64 := by
  obtain ⟨h1, h2, h3, h4, h5, h6⟩ := hsep
  unfold setupOpaque at h
  split at h
  · cases h
  · rename_i memA hA
    split at h
    · cases h
    · rename_i memB hB
      split at h
      · cases h
      · rename_i memC hC
        split at h
        · cases h
        · rename_i memD hD
          have hb := (PutUint64_ok hA).1
          rw [← PutUint64_read hA]
          apply getLE_congr
          intro x hx1 hx2
          have hx : (x : Int) < m.opaqueBuf.ptr + (m.parent.offsets.ModuleInstanceOffset + 8) := by
            omega
          rw [setupOpaque.listeners_below h h5 h6 x hx, setupOpaque.tables_below hD h3 h4 x hx,
            setupOpaque.globals_below hC h2 x hx, setupOpaque.localMemory_below hB h1 x hx]

/-! ## Function instances in memory -/

theorem storeFunctionInstance_frame (mem : Mem) (p : Nat) (f : functionInstance) (x : Nat)
    (hx : x < p ∨ p + 24 ≤ x) : storeFunctionInstance mem p f x = mem x := by
  unfold storeFunctionInstance
  rw [putLE_outside _ _ _ _ _ (by omega), putLE_outside _ _ _ _ _ (by omega),
    putLE_outside _ _ _ _ _ (by omega), putLE_outside _ _ _ _ _ (by omega)]

theorem functionFromUintptr_store (mem : Mem) (p : Nat) (f : functionInstance) :
    functionFromUintptr (storeFunctionInstance mem p f) p =
      { executable := f.executable % 2 ^ 64
        moduleContextOpaquePtr := f.moduleContextOpaquePtr % 2 ^ 64
        typeID := f.typeID % 2 ^ 32
        indexInModule := f.indexInModule % 2 ^ 32 } := by
  have e1 : getLE 8 (storeFunctionInstance mem p f) p = f.executable % 2 ^ 64 := by
    unfold storeFunctionInstance
    rw [getLE_putLE_disjoint _ _ _ _ _ _ (by omega), getLE_putLE_disjoint _ _ _ _ _ _ (by omega),
      getLE_putLE_disjoint _ _ _ _ _ _ (by omega), getLE_putLE_same]
    norm_num
  have e2 : getLE 8 (storeFunctionInstance mem p f) (p + 8) =
      f.moduleContextOpaquePtr % 2 ^ 64 := by
    unfold storeFunctionInstance
    rw [getLE_putLE_disjoint _ _ _ _ _ _ (by omega), getLE_putLE_disjoint _ _ _ _ _ _ (by omega),
      getLE_putLE_same]
    norm_num
  have e3 : getLE 4 (storeFunctionInstance mem p f) (p + 16) = f.typeID % 2 ^ 32 := by
    unfold storeFunctionInstance
    rw [getLE_putLE_disjoint _ _ _ _ _ _ (by omega), getLE_putLE_same]
    norm_num
  have e4 : getLE 4 (storeFunctionInstance mem p f) (p + 20) = f.indexInModule % 2 ^ 32 := by
    unfold storeFunctionInstance
    rw [getLE_putLE_same]
    norm_num
  unfold functionFromUintptr
  rw [e1, e2, e3, e4]

theorem World.engine_ok {w : World} {m : Nat} {me : moduleEngine}
    (h : w.engines[m]? = some me) : w.engine m = .ok me := by
  simp [World.engine, h]

theorem goIndex_ok {α : Type} {l : List α} {i : Nat} {x : α} (h : l[i]? = some x) :
    goIndex l i = .ok x := by
  simp [goIndex, h]

theorem goIndex_eq_ok {α : Type} {l : List α} {i : Nat} {x : α} (h : goIndex l i = .ok x) :
    l[i]? = some x := by
  unfold goIndex at h
  split at h
  · rename_i y hy
    rw [hy, Except.ok.inj h]
  · cases h

/-! ## Indirect call dispatcher -/

/-- The dispatcher on a populated slot of a function-reference table whose
length fits uint32. -/
theorem LookupFunction_slot (mem : Mem) (t : TableInstance) (typeId slot rawPtr : Nat)
    (hkind : t.Typ = RefTypeFuncref) (hlen : t.References.length < 2 ^ 32)
    (hslot : t.References[slot]? = some rawPtr) (hnz : rawPtr ≠ 0) :
    LookupFunction mem t typeId slot =
      if (functionFromUintptr mem rawPtr).typeID ≠ typeId then
        .error .ErrRuntimeIndirectCallTypeMismatch
      else
        match moduleInstanceFromOpaquePtr mem
            (functionFromUintptr mem rawPtr).moduleContextOpaquePtr with
        | .error e => .error e
        | .ok inst => .ok (inst, (functionFromUintptr mem rawPtr).indexInModule) := by
  have hlt : slot < t.References.length := by
    rcases List.getElem?_eq_some.mp hslot with ⟨h, _⟩
    exact h
  unfold LookupFunction
  rw [if_neg (by rw [Nat.mod_eq_of_lt hlen]; simp only [hkind, ne_eq, not_true_eq_false, or_false]; omega)]
  simp only [hslot]
  rw [if_neg hnz]

/-- C1: on a non-host engine `me` finalised by `DoneInstantiation`, whose
self-instance pointer is at offset 0 with every later field after it, a
function-reference table slot holding the reference vended by
`FunctionInstanceReference` for the local index `i` is looked up, with the type
id of `i`, to the pair (module instance of `me`, `i`). The allocator address
`lf` is non-null and clear of the start of the context buffer; the context
address is non-null; addresses fit 64 bits, indices and type ids 32 bits, and
the table length fits uint32. -/
theorem LookupFunction_local_reference (w w1 w2 : World) (m i lf ref slot typeIndex typeID : Nat)
    (me : moduleEngine) (t : TableInstance)
    (hme : w.engines[m]? = some me)
    (hhost : me.module.Source.IsHostModule = false)
    (hdone : DoneInstantiation w m = .ok w1)
    (hoff0 : me.parent.offsets.ModuleInstanceOffset = 0)
    (hsep : me.parent.offsets.laterFieldsFrom 8)
    (hptr : me.opaquePtr = me.opaqueBuf.ptr)
    (hlocal : me.module.Source.ImportFunctionCount ≤ i)
    (href : FunctionInstanceReference w1 m i lf = .ok (ref, w2))
    (hlf : lf ≠ 0)
    (hfresh : lf + 24 ≤ me.opaqueBuf.ptr ∨ me.opaqueBuf.ptr + 8 ≤ lf)
    (hi : i < 2 ^ 32) (haddr : me.module.addr < 2 ^ 64) (hop : me.opaquePtr < 2 ^ 64)
    (hctx : me.opaquePtr ≠ 0)
    (hti : me.module.Source.FunctionSection[i - me.module.Source.ImportFunctionCount]? =
      some typeIndex)
    (htid : me.module.TypeIDs[typeIndex]? = some typeID) (htidb : typeID < 2 ^ 32)
    (hkind : t.Typ = RefTypeFuncref) (hlen : t.References.length < 2 ^ 32)
    (hslot : t.References[slot]? = some ref) :
    LookupFunction w2.mem t typeID slot = .ok (me.module.addr, i) := by
  -- the heap after DoneInstantiation
  unfold DoneInstantiation at hdone
  rw [World.engine_ok hme] at hdone
  simp only [hhost, Bool.not_false, if_true] at hdone
  cases hs : setupOpaque w.mem me with
  | error e => rw [hs] at hdone; cases hdone
  | ok mem1 =>
    rw [hs] at hdone
    have hw1 : w1 = { w with mem := mem1 } := (Except.ok.inj hdone).symm
    have hself := setupOpaque_self hs (by rw [hoff0]; exact hsep)
    rw [hoff0] at hself
    simp only [Int.toNat_zero, Nat.add_zero] at hself
    -- the reference and the heap after FunctionInstanceReference
    have hme1 : w1.engines[m]? = some me := by rw [hw1]; exact hme
    unfold FunctionInstanceReference at href
    rw [World.engine_ok hme1] at href
    simp only [if_neg (Nat.not_lt.mpr hlocal), goIndex_ok hti, goIndex_ok htid] at href
    split at href
    · cases href
    · rename_i offset hoffset
      split at href
      · cases href
      · rename_i executable hexec
        obtain ⟨h1, h2⟩ := Prod.mk.inj (Except.ok.inj href)
        subst h1
        subst h2
        rw [LookupFunction_slot _ t typeID slot lf hkind hlen hslot hlf]
        dsimp only
        rw [functionFromUintptr_store]
        dsimp only
        rw [Nat.mod_eq_of_lt htidb, Nat.mod_eq_of_lt hi, Nat.mod_eq_of_lt hop,
          if_neg (not_not.mpr rfl)]
        unfold moduleInstanceFromOpaquePtr
        rw [if_neg hctx]
        dsimp only
        have hread : getLE 8 (storeFunctionInstance w1.mem lf
            { executable := executable, moduleContextOpaquePtr := me.opaquePtr,
              typeID := typeID, indexInModule := i }) me.opaquePtr = getLE 8 w1.mem me.opaquePtr := by
          apply getLE_congr
          intro x hx1 hx2
          exact storeFunctionInstance_frame _ _ _ x (by omega)
        rw [hread, hw1, hptr, hself, Nat.mod_eq_of_lt haddr]

/-- Witness of C1: the provider's function 2, of type id 9, vended at address
40000 and stored in slot 0 of a one-slot table. -/
theorem LookupFunction_local_reference_witness :
    LookupFunction Example.heap2.mem ⟨[40000], RefTypeFuncref⟩ 9 0 = .ok (5000, 2) :=
  LookupFunction_local_reference Example.heap0 Example.heap1 Example.heap2 0 2 40000 40000 0 1 9
    Example.provider ⟨[40000], RefTypeFuncref⟩ rfl rfl rfl rfl (by decide) rfl (by decide) rfl
    (by decide) (by decide) (by decide) (by decide) (by decide) (by decide) rfl rfl (by decide)
    rfl (by decide) rfl

/-- C3: on a function-reference table (its length fitting uint32), at an
in-bounds slot holding a non-zero reference, an expected type id different from
the type id recorded in the function instance the slot denotes makes
`LookupFunction` fail with the indirect-call type-mismatch error; no pair is
returned. -/
theorem LookupFunction_type_mismatch (mem : Mem) (t : TableInstance)
    (typeId tableOffset rawPtr : Nat)
    (hkind : t.Typ = RefTypeFuncref) (hlen : t.References.length < 2 ^ 32)
    (hslot : t.References[tableOffset]? = some rawPtr) (hnz : rawPtr ≠ 0)
    (hty : typeId ≠ (functionFromUintptr mem rawPtr).typeID) :
    LookupFunction mem t typeId tableOffset = .error .ErrRuntimeIndirectCallTypeMismatch ∧
      ∀ r, LookupFunction mem t typeId tableOffset ≠ .ok r := by
  have h : LookupFunction mem t typeId tableOffset =
      .error .ErrRuntimeIndirectCallTypeMismatch := by
    rw [LookupFunction_slot mem t typeId tableOffset rawPtr hkind hlen hslot hnz,
      if_pos (fun h => hty h.symm)]
  refine ⟨h, fun r hr => ?_⟩
  rw [h] at hr
  cases hr

/-- Witness of C3: the function instance at 40000 has type id 9 and is looked
up with type id 7. -/
theorem LookupFunction_type_mismatch_witness :
    LookupFunction Example.heap2.mem ⟨[0, 40000], RefTypeFuncref⟩ 7 1 =
        .error .ErrRuntimeIndirectCallTypeMismatch ∧
      ∀ r, LookupFunction Example.heap2.mem ⟨[0, 40000], RefTypeFuncref⟩ 7 1 ≠ .ok r :=
  LookupFunction_type_mismatch Example.heap2.mem ⟨[0, 40000], RefTypeFuncref⟩ 7 1 40000 rfl
    (by decide) rfl (by decide) (by decide!)

/-- C4: whatever the table, the offset and the expected type id, a slot holding
the null sentinel 0 makes `LookupFunction` fail with the invalid-table-access
error, hence not with the type-mismatch error. -/
theorem LookupFunction_null_slot (mem : Mem) (t : TableInstance) (typeId tableOffset : Nat)
    (hslot : t.References[tableOffset]? = some 0) :
    LookupFunction mem t typeId tableOffset = .error .ErrRuntimeInvalidTableAccess ∧
      LookupFunction mem t typeId tableOffset ≠ .error .ErrRuntimeIndirectCallTypeMismatch := by
  have h : LookupFunction mem t typeId tableOffset = .error .ErrRuntimeInvalidTableAccess := by
    unfold LookupFunction
    split
    · rfl
    · simp only [hslot, if_true]
  refine ⟨h, fun hr => ?_⟩
  rw [h] at hr
  cases hr

/-- Witness of C4: a table of length 3 whose slot 1 was left at zero. -/
theorem LookupFunction_null_slot_witness :
    LookupFunction Example.heap2.mem ⟨[40000, 0, 40000], RefTypeFuncref⟩ 9 1 =
        .error .ErrRuntimeInvalidTableAccess ∧
      LookupFunction Example.heap2.mem ⟨[40000, 0, 40000], RefTypeFuncref⟩ 9 1 ≠
        .error .ErrRuntimeIndirectCallTypeMismatch :=
  LookupFunction_null_slot Example.heap2.mem ⟨[40000, 0, 40000], RefTypeFuncref⟩ 9 1 rfl

/-- C5: an offset at or beyond the length of `References`, or an element kind
other than function-reference, makes `LookupFunction` fail with the
invalid-table-access error, whatever the slots hold. The checked slot read
never goes out of range: a Go run-time panic of `LookupFunction` comes only
from a nil context pointer in the function instance of an in-bounds, non-zero
slot whose type id matched; a pair is returned only for an in-bounds offset;
and any outcome other than invalid-table-access is that of an in-bounds offset
of a function-reference table. -/
theorem LookupFunction_bounds (mem : Mem) (t : TableInstance) (typeId tableOffset : Nat) :
    (tableOffset ≥ t.References.length ∨ t.Typ ≠ RefTypeFuncref →
      ∀ refs, refs.length = t.References.length →
        LookupFunction mem { t with References := refs } typeId tableOffset =
          .error .ErrRuntimeInvalidTableAccess) ∧
    (LookupFunction mem t typeId tableOffset = .error .goPanic →
      ∃ rawPtr, t.References[tableOffset]? = some rawPtr ∧ rawPtr ≠ 0 ∧
        (functionFromUintptr mem rawPtr).typeID = typeId ∧
        (functionFromUintptr mem rawPtr).moduleContextOpaquePtr = 0) ∧
    (∀ r, LookupFunction mem t typeId tableOffset = .ok r →
      tableOffset < t.References.length) ∧
    (LookupFunction mem t typeId tableOffset ≠ .error .ErrRuntimeInvalidTableAccess →
      tableOffset < t.References.length ∧ t.Typ = RefTypeFuncref) := by
  have hmod : t.References.length % 2 ^ 32 ≤ t.References.length := Nat.mod_le _ _
  refine ⟨?_, ?_, ?_, ?_⟩
  · intro h refs hrefs
    unfold LookupFunction
    rw [if_pos]
    simp only [hrefs]
    rcases h with h | h
    · left; omega
    · right; exact h
  · intro hp
    unfold LookupFunction at hp
    split at hp
    · cases hp
    · rename_i hg
      have hlt : tableOffset < t.References.length := by
        have := not_or.mp hg
        omega
      rw [List.getElem?_eq_getElem hlt] at hp
      simp only at hp
      split at hp
      · cases hp
      · rename_i hnz
        split at hp
        · cases hp
        · rename_i hty
          refine ⟨t.References[tableOffset], List.getElem?_eq_getElem hlt, hnz,
            not_not.mp hty, ?_⟩
          unfold moduleInstanceFromOpaquePtr at hp
          by_cases h0 : (functionFromUintptr mem t.References[tableOffset]).moduleContextOpaquePtr = 0
          · exact h0
          · rw [if_neg h0] at hp
            cases hp
  · intro r hr
    unfold LookupFunction at hr
    split at hr
    · cases hr
    · rename_i hg
      have := not_or.mp hg
      omega
  · intro hne
    unfold LookupFunction at hne
    split at hne
    · exact absurd rfl hne
    · rename_i hg
      have := not_or.mp hg
      exact ⟨by omega, not_not.mp this.2⟩

/-- Witness of C5: offset 3 on a table of length 3, and offset 0 on a table
of external references (kind 0x6f). -/
theorem LookupFunction_bounds_witness :
    LookupFunction Example.heap2.mem ⟨[40000, 0, 40000], RefTypeFuncref⟩ 9 3 =
        .error .ErrRuntimeInvalidTableAccess ∧
      LookupFunction Example.heap2.mem ⟨[40000], 0x6f⟩ 9 0 =
        .error .ErrRuntimeInvalidTableAccess :=
  ⟨(LookupFunction_bounds Example.heap2.mem ⟨[40000, 0, 40000], RefTypeFuncref⟩ 9 3).1
      (Or.inl (by decide)) [40000, 0, 40000] rfl,
    (LookupFunction_bounds Example.heap2.mem ⟨[40000], 0x6f⟩ 9 0).1
      (Or.inr (by decide)) [40000] rfl⟩

/-! ## Import resolution: what a terminal call writes -/

/-- Three consecutive 8-byte fields read back after being written in order. -/
theorem read_triple_after_write (mem : Mem) (a v1 v2 v3 : Nat) :
    getLE 8 (putLE 8 (putLE 8 (putLE 8 mem a v1) (a + 8) v2) (a + 16) v3) a = v1 % 2 ^ 64 ∧
    getLE 8 (putLE 8 (putLE 8 (putLE 8 mem a v1) (a + 8) v2) (a + 16) v3) (a + 8) =
      v2 % 2 ^ 64 ∧
    getLE 8 (putLE 8 (putLE 8 (putLE 8 mem a v1) (a + 8) v2) (a + 16) v3) (a + 16) =
      v3 % 2 ^ 64 := by
  refine ⟨?_, ?_, ?_⟩
  · rw [getLE_putLE_disjoint _ _ _ _ _ _ (by omega), getLE_putLE_disjoint _ _ _ _ _ _ (by omega),
      getLE_putLE_same]
    norm_num
  · rw [getLE_putLE_disjoint _ _ _ _ _ _ (by omega), getLE_putLE_same]
    norm_num
  · rw [getLE_putLE_same]
    norm_num

/-- A call of `ResolveImportedFunction` whose index is not below the length of
the provider's descriptor list does not recurse: with `k` that index minus the
length, it writes the code address at `functionOffsets[k]`, the provider's
context address and `getTypeIDOf k` into slot `s`, and records the descriptor
(provider, `k`). -/
theorem ResolveImportedFunction_terminal (fuel : Nat) (w w1 : World) (m s j p : Nat)
    (me pe : moduleEngine)
    (hme : w.engines[m]? = some me) (hpe : w.engines[p]? = some pe)
    (hj : pe.importedFunctions.length ≤ j)
    (h : ResolveImportedFunction (fuel + 1) w m s j p = .ok w1) :
    ∃ offset executable typeID,
      goIndex pe.parent.functionOffsets (j - pe.importedFunctions.length) = .ok offset ∧
      pe.parent.executable.addrOf offset = .ok executable ∧
      getTypeIDOf (j - pe.importedFunctions.length) pe.module = .ok typeID ∧
      importedFunctionTriple w1 m s =
        .ok (executable % 2 ^ 64, pe.opaquePtr % 2 ^ 64, typeID % 2 ^ 64) ∧
      importedDescriptor w1 m s = .ok ⟨some p, j - pe.importedFunctions.length⟩ := by
  have hm : m < w.engines.length := (List.getElem?_eq_some.mp hme).1
  unfold ResolveImportedFunction at h
  rw [World.engine_ok hme, World.engine_ok hpe] at h
  simp only [ModuleContextOffsetData.ImportedFunctionOffset, ge_iff_le, hj, if_true] at h
  split at h
  · cases h
  · rename_i offset hoffset
    split at h
    · cases h
    · rename_i typeID htypeID
      split at h
      · cases h
      · rename_i executable hexecutable
        split at h
        · cases h
        · rename_i mem1 h1
          split at h
          · cases h
          · rename_i mem2 h2
            split at h
            · cases h
            · rename_i mem3 h3
              split at h
              · rename_i hs
                have hw1 := (Except.ok.inj h).symm
                refine ⟨offset, executable, typeID, hoffset, hexecutable, htypeID, ?_, ?_⟩
                · obtain ⟨hb1, rfl⟩ := PutUint64_ok h1
                  obtain ⟨hb2, rfl⟩ := PutUint64_ok h2
                  obtain ⟨hb3, rfl⟩ := PutUint64_ok h3
                  have e2 : me.opaqueBuf.ptr +
                      (me.parent.offsets.ImportedFunctionsBegin + (s : Int) * 24 + 8).toNat =
                      me.opaqueBuf.ptr +
                        (me.parent.offsets.ImportedFunctionsBegin + (s : Int) * 24).toNat + 8 := by
                    omega
                  have e3 : me.opaqueBuf.ptr +
                      (me.parent.offsets.ImportedFunctionsBegin + (s : Int) * 24 + 16).toNat =
                      me.opaqueBuf.ptr +
                        (me.parent.offsets.ImportedFunctionsBegin + (s : Int) * 24).toNat + 16 := by
                    omega
                  obtain ⟨r1, r2, r3⟩ := read_triple_after_write w.mem
                    (me.opaqueBuf.ptr +
                      (me.parent.offsets.ImportedFunctionsBegin + (s : Int) * 24).toNat)
                    executable pe.opaquePtr typeID
                  rw [hw1]
                  simp only [importedFunctionTriple, World.engine, List.getElem?_set_self hm,
                    ModuleContextOffsetData.ImportedFunctionOffset, Uint64_ok hb1, Uint64_ok hb2,
                    Uint64_ok hb3, e2, e3, r1, r2, r3]
                · rw [hw1]
                  simp only [importedDescriptor, World.engine, List.getElem?_set_self hm, goIndex,
                    List.getElem?_set_self hs]
              · cases h

/-! ## Import resolution on concrete module graphs -/

/-- C2: importer 2 has its single import slot 0 bound to the provider's function
2, whose type id is 9; a table slot holding the importer's reference to import 0
is looked up with type id 9. The lookup returns the provider's module instance
(address 5000) with function index 0: the imported-function slot of the context
buffer has no index field, and the upper half of its type-id field is read as
the index. The claimed pair (provider, 2) is not returned. -/
theorem lookupImported_returns_index_zero :
    getTypeIDOf 2 Example.provider.module = .ok 9 ∧
    Example.lookupImported = .ok (Example.provider.module.addr, 0) ∧
    Example.lookupImported ≠ .ok (Example.provider.module.addr, 2) := by
  decide!

/-- C6: importer 2 binds slot 0 to function 1 of the re-exporter, a function
of type id 9 defined locally in a module with one imported function. The
triple written is (30000, 2000, 7): code and context address are the
re-exporter's, the type id is that of the re-exporter's import 0, because
`getTypeIDOf` is handed the index with the import count already subtracted. -/
theorem resolve_from_reexporter_type_id :
    goIndex Example.reexporter.module.Source.FunctionSection (1 - 1) = .ok 1 ∧
    goIndex Example.reexporter.module.TypeIDs 1 = .ok 9 ∧
    importedFunctionTriple Example.boundToReexporter 2 0 = .ok (30000, 2000, 7) := by
  decide!

/-- C7: importer 2 binds slot 0 to function 1 of the re-exporter, then importer
3 binds slot 0 to importer 2's function 0. The triple in importer 3's buffer is
(20000, 1000, 7), the provider's function 0; binding importer 3 directly to the
re-exporter's function 1 writes (30000, 2000, 7). The chain does not flatten to
the direct triple when the terminal provider imports a function. -/
theorem resolve_chain_differs_from_direct :
    importedFunctionTriple Example.boundThroughChain 3 0 = .ok (20000, 1000, 7) ∧
    importedFunctionTriple Example.boundDirectly 3 0 = .ok (30000, 2000, 7) ∧
    importedFunctionTriple Example.boundThroughChain 3 0 ≠
      importedFunctionTriple Example.boundDirectly 3 0 := by
  decide!

/-- C8: after importer 2 binds slot 0 to function 1 of the re-exporter (engine
1), its descriptor for slot 0 is (engine 1, 0): the recorded index is the
caller's index minus the re-exporter's import count, not the flat index 1. -/
theorem resolve_from_reexporter_descriptor :
    importedDescriptor Example.boundToReexporter 2 0 = .ok ⟨some 1, 0⟩ ∧
    importedDescriptor Example.boundToReexporter 2 0 ≠ .ok ⟨some 1, 1⟩ := by
  decide!

/-- C9: after importer 2 binds slot 0 to function 1 of the re-exporter (engine
1), `NewFunction` on importer 2's index 0 yields the callable of the provider's
function 0 (owner engine 0, index 0, code at 20000), whereas `NewFunction` on
the re-exporter's index 1 yields owner engine 1, index 1, code at 30000. -/
theorem newFunction_of_import_differs :
    (NewFunction 3 Example.boundToReexporter 2 0).map
        (fun c => (c.parent, c.indexInModule, c.executable)) = .ok (0, 0, 20000) ∧
    (NewFunction 3 Example.boundToReexporter 1 1).map
        (fun c => (c.parent, c.indexInModule, c.executable)) = .ok (1, 1, 30000) ∧
    NewFunction 3 Example.boundToReexporter 2 0 ≠ NewFunction 3 Example.boundToReexporter 1 1 := by
  decide!

/-! ## Imported memory -/

/-- Two consecutive 8-byte fields read back after being written in order. -/
theorem read_pair_after_write (mem : Mem) (a v1 v2 : Nat) (h1 : v1 < 2 ^ 64) (h2 : v2 < 2 ^ 64) :
    getLE 8 (putLE 8 (putLE 8 mem a v1) (a + 8) v2) a = v1 ∧
    getLE 8 (putLE 8 (putLE 8 mem a v1) (a + 8) v2) (a + 8) = v2 := by
  constructor
  · rw [getLE_putLE_disjoint _ _ _ _ _ _ (by omega), getLE_putLE_same]
    exact Nat.mod_eq_of_lt (by norm_num; exact h1)
  · rw [getLE_putLE_same]
    exact Nat.mod_eq_of_lt (by norm_num; exact h2)

/-- One step of imported-memory resolution: when the provider yields `pair`,
the importer's field holds `pair` afterwards and the engines are untouched. -/
theorem ResolveImportedMemory_step (w : World) (m prev : Nat) (pe : moduleEngine)
    (pair : Nat × Nat)
    (hprev : w.engines[prev]? = some pe)
    (howner : ResolveImportedMemory.owner w.mem pe = .ok pair)
    (h1 : pair.1 < 2 ^ 64) (h2 : pair.2 < 2 ^ 64)
    (hm : importsMemory w m) :
    ∃ w1, ResolveImportedMemory w m prev = .ok w1 ∧ w1.engines = w.engines ∧
      importedMemoryPair w1 m = .ok pair ∧
      ∀ me, w.engines[m]? = some me → ResolveImportedMemory.owner w1.mem me = .ok pair := by
  unfold importsMemory at hm
  cases hme : w.engines[m]? with
  | none => rw [hme] at hm; exact hm.elim
  | some me =>
    rw [hme] at hm
    simp only at hm
    obtain ⟨hb0, hb1⟩ := hm
    have hbA : 0 ≤ me.parent.offsets.ImportedMemoryBegin ∧
        me.parent.offsets.ImportedMemoryBegin + 8 ≤ me.opaqueBuf.len := ⟨hb0, by omega⟩
    have hbB : 0 ≤ me.parent.offsets.ImportedMemoryBegin + 8 ∧
        me.parent.offsets.ImportedMemoryBegin + 8 + 8 ≤ me.opaqueBuf.len :=
      ⟨by omega, by omega⟩
    have hto : me.opaqueBuf.ptr + (me.parent.offsets.ImportedMemoryBegin + 8).toNat =
        me.opaqueBuf.ptr + me.parent.offsets.ImportedMemoryBegin.toNat + 8 := by omega
    obtain ⟨r1, r2⟩ := read_pair_after_write w.mem
      (me.opaqueBuf.ptr + me.parent.offsets.ImportedMemoryBegin.toNat) pair.1 pair.2 h1 h2
    refine ⟨World.mk (putLE 8 (putLE 8 w.mem
        (me.opaqueBuf.ptr + me.parent.offsets.ImportedMemoryBegin.toNat) pair.1)
        (me.opaqueBuf.ptr + me.parent.offsets.ImportedMemoryBegin.toNat + 8) pair.2) w.engines,
      ?_, rfl, ?_, ?_⟩
    · unfold ResolveImportedMemory
      rw [World.engine_ok hme, World.engine_ok hprev]
      simp only [howner, PutUint64_of_bounds _ _ _ _ hbA, PutUint64_of_bounds _ _ _ _ hbB, hto]
    · unfold importedMemoryPair
      simp only [World.engine, hme, Uint64_ok hbA, Uint64_ok hbB, hto, r1, r2]
    · intro me2 hme2
      have := Option.some.inj hme2
      subst this
      unfold ResolveImportedMemory.owner
      simp only [ge_iff_le, hb0, if_true, Uint64_ok hbA, Uint64_ok hbB, hto, r1, r2]

/-- Along a chain the pair yielded by the first provider reaches every engine
of the chain, the last one included. -/
theorem resolveMemoryChain_pair (chain : List Nat) (w : World) (prev : Nat) (pe : moduleEngine)
    (pair : Nat × Nat)
    (hprev : w.engines[prev]? = some pe)
    (howner : ResolveImportedMemory.owner w.mem pe = .ok pair)
    (h1 : pair.1 < 2 ^ 64) (h2 : pair.2 < 2 ^ 64)
    (hchain : ∀ m ∈ chain, importsMemory w m) :
    ∃ w1, resolveMemoryChain w prev chain = .ok w1 ∧
      ∀ hne : chain ≠ [], importedMemoryPair w1 (chain.getLast hne) = .ok pair := by
  induction chain generalizing w prev pe with
  | nil => exact ⟨w, rfl, fun hne => (hne rfl).elim⟩
  | cons m rest ih =>
    obtain ⟨w1, hstep, heng, hpair, hown⟩ :=
      ResolveImportedMemory_step w m prev pe pair hprev howner h1 h2
        (hchain m (List.mem_cons_self m rest))
    have hm : importsMemory w m := hchain m (List.mem_cons_self m rest)
    cases hme : w.engines[m]? with
    | none => unfold importsMemory at hm; rw [hme] at hm; exact hm.elim
    | some me =>
      have hrest : ∀ x ∈ rest, importsMemory w1 x := by
        intro x hx
        have := hchain x (List.mem_cons_of_mem m hx)
        unfold importsMemory at this ⊢
        rw [heng]
        exact this
      obtain ⟨w2, hres, hlast⟩ := ih w1 m me (by rw [heng]; exact hme) (hown me hme) hrest
      refine ⟨w2, ?_, ?_⟩
      · simp only [resolveMemoryChain, hstep, hres]
      · intro hne
        cases rest with
        | nil =>
          simp only [resolveMemoryChain] at hres
          have : w2 = w1 := (Except.ok.inj hres).symm
          subst this
          simpa using hpair
        | cons r rs =>
          rw [List.getLast_cons (by simp)]
          exact hlast (by simp)

/-- C10: for a chain in which every engine imports its memory from the one
before it and the first from `owner`, an engine that owns its memory
(`ImportedMemoryBegin` absent), applying `ResolveImportedMemory` along the
chain in order succeeds, and the imported-memory field of the last engine
holds (address of the owner's memory instance, owner's context address).
Addresses fit 64 bits and every importer's buffer has room for the field. -/
theorem resolveMemoryChain_true_owner (w : World) (owner : Nat) (chain : List Nat)
    (oe : moduleEngine) (mi : MemoryInstance)
    (howner : w.engines[owner]? = some oe)
    (habsent : oe.parent.offsets.ImportedMemoryBegin < 0)
    (hmem : oe.module.MemoryInstance = some mi)
    (haddr : mi.addr < 2 ^ 64) (hctx : oe.opaquePtr < 2 ^ 64)
    (hchain : ∀ m ∈ chain, importsMemory w m) (hne : chain ≠ []) :
    ∃ w1, resolveMemoryChain w owner chain = .ok w1 ∧
      importedMemoryPair w1 (chain.getLast hne) = .ok (mi.addr, oe.opaquePtr) := by
  have hown : ResolveImportedMemory.owner w.mem oe = .ok (mi.addr, oe.opaquePtr) := by
    unfold ResolveImportedMemory.owner
    simp only [ge_iff_le, not_le.mpr habsent, if_false, hmem]
  obtain ⟨w1, hres, hlast⟩ :=
    resolveMemoryChain_pair chain w owner oe (mi.addr, oe.opaquePtr) howner hown haddr hctx hchain
  exact ⟨w1, hres, hlast hne⟩

/-- Witness of C10: engine 1 imports memory from the provider and engine 2
from engine 1; engine 2 ends with the provider's memory instance (5600) and
context address (1000). -/
theorem resolveMemoryChain_true_owner_witness :
    ∃ w1, resolveMemoryChain Example.memoryGraph 0 [1, 2] = .ok w1 ∧
      importedMemoryPair w1 2 = .ok (5600, 1000) :=
  resolveMemoryChain_true_owner Example.memoryGraph 0 [1, 2] Example.provider
    ⟨5600, ⟨70000, 65536⟩⟩ rfl (by decide) rfl (by decide) (by decide) (by decide) (by decide)

/-! ## Context builder: local memory -/

/-- C11: for a module with local memory (`LocalMemoryBegin` = `o`, not negative)
and any memory buffer, the local-memory block of `setupOpaque` succeeds when
the context buffer has 16 bytes of room at `o`; afterwards the 8 bytes at `o`
hold the address of the first element of the memory buffer, or 0 when the
buffer is empty, and the 8 bytes at `o + 8` hold its length. Address and
length fit 64 bits. -/
theorem setupOpaque_localMemory_writes (mem : Mem) (m : moduleEngine) (mi : MemoryInstance)
    (ho : 0 ≤ m.parent.offsets.LocalMemoryBegin)
    (hroom : m.parent.offsets.LocalMemoryBegin + 16 ≤ m.opaqueBuf.len)
    (hmi : m.module.MemoryInstance = some mi)
    (hptr : mi.Buffer.ptr < 2 ^ 64) (hlen : mi.Buffer.len < 2 ^ 64) :
    ∃ mem1, setupOpaque.localMemory mem m = .ok mem1 ∧
      putLocalMemory mem m.opaqueBuf m.parent.offsets.LocalMemoryBegin (some mi) = .ok mem1 ∧
      getLE 8 mem1 (m.opaqueBuf.ptr + m.parent.offsets.LocalMemoryBegin.toNat) =
        (if mi.Buffer.len = 0 then 0 else mi.Buffer.ptr) ∧
      getLE 8 mem1 (m.opaqueBuf.ptr + m.parent.offsets.LocalMemoryBegin.toNat + 8) =
        mi.Buffer.len := by
  have hbA : 0 ≤ m.parent.offsets.LocalMemoryBegin ∧
      m.parent.offsets.LocalMemoryBegin + 8 ≤ m.opaqueBuf.len := ⟨ho, by omega⟩
  have hbB : 0 ≤ m.parent.offsets.LocalMemoryBegin + 8 ∧
      m.parent.offsets.LocalMemoryBegin + 8 + 8 ≤ m.opaqueBuf.len := ⟨by omega, by omega⟩
  have hto : m.opaqueBuf.ptr + (m.parent.offsets.LocalMemoryBegin + 8).toNat =
      m.opaqueBuf.ptr + m.parent.offsets.LocalMemoryBegin.toNat + 8 := by omega
  have hb : (if mi.Buffer.len > 0 then mi.Buffer.ptr else 0) < 2 ^ 64 := by
    split
    · exact hptr
    · norm_num
  obtain ⟨r1, r2⟩ := read_pair_after_write mem
    (m.opaqueBuf.ptr + m.parent.offsets.LocalMemoryBegin.toNat)
    (if mi.Buffer.len > 0 then mi.Buffer.ptr else 0) mi.Buffer.len hb hlen
  have hput : putLocalMemory mem m.opaqueBuf m.parent.offsets.LocalMemoryBegin (some mi) =
      .ok (putLE 8 (putLE 8 mem (m.opaqueBuf.ptr + m.parent.offsets.LocalMemoryBegin.toNat)
        (if mi.Buffer.len > 0 then mi.Buffer.ptr else 0))
        (m.opaqueBuf.ptr + m.parent.offsets.LocalMemoryBegin.toNat + 8) mi.Buffer.len) := by
    simp only [putLocalMemory, PutUint64_of_bounds _ _ _ _ hbA, PutUint64_of_bounds _ _ _ _ hbB, hto]
  refine ⟨_, ?_, hput, ?_, r2⟩
  · unfold setupOpaque.localMemory
    rw [if_pos ho, hmi, hput]
  · rw [r1]
    by_cases h0 : mi.Buffer.len = 0
    · simp [h0]
    · rw [if_neg h0, if_pos (Nat.pos_of_ne_zero h0)]

/-- Witness of C11: the full module, whose memory buffer of 65536 bytes starts
at 80000 and whose local-memory field is at byte 8 of the buffer at 9000. -/
theorem setupOpaque_localMemory_writes_witness :
    ∃ mem1, setupOpaque.localMemory (fun _ => 1) Example.full = .ok mem1 ∧
      putLocalMemory (fun _ => 1) ⟨9000, 96⟩ 8 (some ⟨9700, ⟨80000, 65536⟩⟩) = .ok mem1 ∧
      getLE 8 mem1 9008 = 80000 ∧ getLE 8 mem1 9016 = 65536 :=
  setupOpaque_localMemory_writes (fun _ => 1) Example.full ⟨9700, ⟨80000, 65536⟩⟩
    (by decide) (by decide) rfl (by decide) (by decide)

/-! ## Module finalisation -/

/-- C14: `DoneInstantiation` on a host module returns the heap as it was, memory
and engines alike; on any other module it returns the heap whose memory is the
one `setupOpaque` produces for that engine, with the engines as they were, and
it faults exactly when `setupOpaque` does. -/
theorem DoneInstantiation_runs_builder (w : World) (m : Nat) (me : moduleEngine)
    (hme : w.engines[m]? = some me) :
    (me.module.Source.IsHostModule = true → DoneInstantiation w m = .ok w) ∧
    (me.module.Source.IsHostModule = false →
      (∀ mem1, setupOpaque w.mem me = .ok mem1 →
        DoneInstantiation w m = .ok ⟨mem1, w.engines⟩) ∧
      (∀ e, setupOpaque w.mem me = .error e → DoneInstantiation w m = .error e)) := by
  refine ⟨fun hh => ?_, fun hh => ⟨fun mem1 hs => ?_, fun e hs => ?_⟩⟩
  · simp [DoneInstantiation, World.engine_ok hme, hh]
  · simp [DoneInstantiation, World.engine_ok hme, hh, hs]
  · simp [DoneInstantiation, World.engine_ok hme, hh, hs]

/-- Witness of C14: engine 0 of the builder heap is a host module. -/
theorem DoneInstantiation_runs_builder_witness :
    DoneInstantiation Example.builderHeap 0 = .ok Example.builderHeap :=
  (DoneInstantiation_runs_builder Example.builderHeap 0 Example.hostEngine rfl).1 rfl

/-! ## Type ids of the flat function index space -/

/-- The loop of `getTypeIDOf` started with counter `cnt` finds the entry number
`f - cnt` among the function-kind imports. -/
theorem getTypeIDOf.scan_eq (f : Nat) (l : List Import) (cnt : Nat) (h : cnt ≤ f) :
    getTypeIDOf.scan f l cnt =
      match (functionImports l)[f - cnt]? with
      | some imp => imp.DescFunc
      | none => 0 := by
  induction l generalizing cnt with
  | nil => simp [getTypeIDOf.scan, functionImports]
  | cons imp rest ih =>
    unfold getTypeIDOf.scan
    by_cases hk : imp.Typ = ExternTypeFunc
    · rw [if_pos hk]
      have hf : functionImports (imp :: rest) = imp :: functionImports rest := by
        simp [functionImports, hk]
      by_cases hc : cnt = f
      · rw [if_pos hc, hf, hc]
        simp
      · rw [if_neg hc, ih (cnt + 1) (by omega), hf]
        have e : f - cnt = (f - (cnt + 1)) + 1 := by omega
        rw [e, List.getElem?_cons_succ]
    · rw [if_neg hk, ih cnt h]
      have hf : functionImports (imp :: rest) = functionImports rest := by
        simp [functionImports, hk]
      rw [hf]

/-- C18: for a module instance whose `ImportFunctionCount` is the number of
function-kind entries of its import section, `getTypeIDOf f` is
`TypeIDs[FunctionSection[f - ImportFunctionCount]]` when `f` is not below the
count, and otherwise `TypeIDs[DescFunc]` of entry number `f` (from 0) among the
function-kind imports in section order, other kinds being skipped. Each
indexing is a checked Go index. -/
theorem getTypeIDOf_index_split (m : ModuleInstance) (f : Nat)
    (hcount : m.Source.ImportFunctionCount = (functionImports m.Source.ImportSection).length) :
    (m.Source.ImportFunctionCount ≤ f →
      getTypeIDOf f m =
        match m.Source.FunctionSection[f - m.Source.ImportFunctionCount]? with
        | some typeIndex => goIndex m.TypeIDs typeIndex
        | none => .error .goPanic) ∧
    (f < m.Source.ImportFunctionCount →
      ∃ imp, (functionImports m.Source.ImportSection)[f]? = some imp ∧
        getTypeIDOf f m = goIndex m.TypeIDs imp.DescFunc) := by
  constructor
  · intro h
    unfold getTypeIDOf
    simp only [ge_iff_le, h, if_true, goIndex]
    cases m.Source.FunctionSection[f - m.Source.ImportFunctionCount]? <;> rfl
  · intro h
    have hlt : f < (functionImports m.Source.ImportSection).length := by omega
    refine ⟨(functionImports m.Source.ImportSection)[f], List.getElem?_eq_getElem hlt, ?_⟩
    unfold getTypeIDOf
    simp only [ge_iff_le, Nat.not_le.mpr h, if_false]
    rw [getTypeIDOf.scan_eq f _ 0 (Nat.zero_le f), Nat.sub_zero, List.getElem?_eq_getElem hlt]

/-- Witness of C18: the full module imports a memory and then a function of
type index 1; its function 0 has the type id at index 1, which is 9. -/
theorem getTypeIDOf_index_split_witness :
    ∃ imp, (functionImports Example.full.module.Source.ImportSection)[0]? = some imp ∧
      getTypeIDOf 0 Example.full.module = goIndex Example.full.module.TypeIDs imp.DescFunc :=
  (getTypeIDOf_index_split Example.full.module 0 (by decide)).2 (by decide)

/-! ## Callables of local functions -/

theorem Slice.addrOf_zero (s : Slice) (h : 0 < s.len) : s.addrOf 0 = .ok s.ptr := by
  unfold Slice.addrOf
  rw [if_pos ⟨le_refl 0, by exact_mod_cast h⟩]
  simp

/-- C19: for a local function index `i` of engine `m`, with the type index, the
type, the code offset, the entry preamble and the shared entry points in range,
`NewFunction` returns a callable whose storage size is the maximum of
`ParamNumInUint64` and `ResultNumInUint64` of the type at
`FunctionSection[i - ImportFunctionCount]`, whose required-parameter and result
counts are those two numbers, whose executable is the code address at
`functionOffsets[i - ImportFunctionCount]`, whose owner is `m` and whose
recorded index is `i`; the storage size is at least either count. -/
theorem NewFunction_local (fuel : Nat) (w : World) (m i typIndex executable preamble : Nat)
    (offset : Int) (typ : FunctionType) (me : moduleEngine)
    (hme : w.engines[m]? = some me)
    (hlocal : me.module.Source.ImportFunctionCount ≤ i)
    (hfs : me.module.Source.FunctionSection[i - me.module.Source.ImportFunctionCount]? =
      some typIndex)
    (hts : me.module.Source.TypeSection[typIndex]? = some typ)
    (hfo : me.parent.functionOffsets[i - me.module.Source.ImportFunctionCount]? = some offset)
    (hex : me.parent.executable.addrOf offset = .ok executable)
    (hpre : me.parent.entryPreambles[typIndex]? = some preamble)
    (h1 : 0 < me.parent.shared.memoryGrowExecutable.len)
    (h2 : 0 < me.parent.shared.stackGrowExecutable.len)
    (h3 : 0 < me.parent.shared.checkModuleExitCode.len)
    (h4 : 0 < me.parent.shared.tableGrowExecutable.len)
    (h5 : 0 < me.parent.shared.refFuncExecutable.len) :
    ∃ ce, NewFunction (fuel + 1) w m i = .ok ce ∧
      ce.sizeOfParamResultSlice = max typ.ParamNumInUint64 typ.ResultNumInUint64 ∧
      ce.requiredParams = typ.ParamNumInUint64 ∧
      ce.numberOfResults = typ.ResultNumInUint64 ∧
      ce.executable = executable ∧
      ce.parent = m ∧
      ce.indexInModule = i ∧
      typ.ParamNumInUint64 ≤ ce.sizeOfParamResultSlice ∧
      typ.ResultNumInUint64 ≤ ce.sizeOfParamResultSlice := by
  have hsize : (if typ.ParamNumInUint64 > typ.ResultNumInUint64 then typ.ParamNumInUint64
      else typ.ResultNumInUint64) = max typ.ParamNumInUint64 typ.ResultNumInUint64 := by
    split <;> omega
  refine ⟨{ indexInModule := i, executable := executable, parent := m
            preambleExecutable := preamble
            sizeOfParamResultSlice :=
              if typ.ParamNumInUint64 > typ.ResultNumInUint64 then typ.ParamNumInUint64
              else typ.ResultNumInUint64
            requiredParams := typ.ParamNumInUint64
            numberOfResults := typ.ResultNumInUint64
            memoryGrowTrampolineAddress := me.parent.shared.memoryGrowExecutable.ptr
            stackGrowCallTrampolineAddress := me.parent.shared.stackGrowExecutable.ptr
            checkModuleExitCodeTrampolineAddress := me.parent.shared.checkModuleExitCode.ptr
            tableGrowTrampolineAddress := me.parent.shared.tableGrowExecutable.ptr
            refFuncTrampolineAddress := me.parent.shared.refFuncExecutable.ptr },
    ?_, hsize, rfl, rfl, rfl, rfl, rfl, ?_, ?_⟩
  · unfold NewFunction
    simp only [PrintMachineCodeHexPerFunctionDisassemblable, Bool.false_eq_true, if_false,
      World.engine_ok hme, Nat.not_lt.mpr hlocal, goIndex_ok hfs, goIndex_ok hts, goIndex_ok hfo,
      hex, goIndex_ok hpre, Slice.addrOf_zero _ h1, Slice.addrOf_zero _ h2, Slice.addrOf_zero _ h3,
      Slice.addrOf_zero _ h4, Slice.addrOf_zero _ h5]
  · simp only [hsize]; omega
  · simp only [hsize]; omega

/-- Witness of C19: function 2 of the provider has type (2 parameters, 1
result) and code at 20000 + 200. -/
theorem NewFunction_local_witness :
    ∃ ce, NewFunction 1 Example.heap0 0 2 = .ok ce ∧
      ce.sizeOfParamResultSlice = max 2 1 ∧ ce.requiredParams = 2 ∧ ce.numberOfResults = 1 ∧
      ce.executable = 20200 ∧ ce.parent = 0 ∧ ce.indexInModule = 2 ∧
      2 ≤ ce.sizeOfParamResultSlice ∧ 1 ≤ ce.sizeOfParamResultSlice :=
  NewFunction_local 0 Example.heap0 0 2 1 20200 21100 200 ⟨2, 1⟩ Example.provider rfl
    (by decide) rfl rfl rfl rfl rfl (by decide) (by decide) (by decide) (by decide) (by decide)

/-! ## The function instance cache -/

theorem functionFromUintptr_congr (m1 m2 : Mem) (p : Nat)
    (h : ∀ x, p ≤ x → x < p + 24 → m1 x = m2 x) :
    functionFromUintptr m1 p = functionFromUintptr m2 p := by
  unfold functionFromUintptr
  rw [getLE_congr 8 m1 m2 p (fun x h1 h2 => h x (by omega) (by omega)),
    getLE_congr 8 m1 m2 (p + 8) (fun x h1 h2 => h x (by omega) (by omega)),
    getLE_congr 4 m1 m2 (p + 16) (fun x h1 h2 => h x (by omega) (by omega)),
    getLE_congr 4 m1 m2 (p + 20) (fun x h1 h2 => h x (by omega) (by omega))]

/-- What `FunctionInstanceReference` returns for a local index. -/
theorem FunctionInstanceReference_local {w w1 : World} {m i lf ref : Nat} {me : moduleEngine}
    (hme : w.engines[m]? = some me)
    (hlocal : me.module.Source.ImportFunctionCount ≤ i)
    (href : FunctionInstanceReference w m i lf = .ok (ref, w1)) :
    ∃ offset executable typeIndex typeID,
      me.parent.functionOffsets[i - me.module.Source.ImportFunctionCount]? = some offset ∧
      me.parent.executable.addrOf offset = .ok executable ∧
      me.module.Source.FunctionSection[i - me.module.Source.ImportFunctionCount]? =
        some typeIndex ∧
      me.module.TypeIDs[typeIndex]? = some typeID ∧
      ref = lf ∧
      w1 = ⟨storeFunctionInstance w.mem lf ⟨executable, me.opaquePtr, typeID, i⟩,
        w.engines.set m
          { me with localFunctionInstances := me.localFunctionInstances ++ [lf] }⟩ := by
  unfold FunctionInstanceReference at href
  rw [World.engine_ok hme] at href
  simp only [if_neg (Nat.not_lt.mpr hlocal)] at href
  split at href
  · cases href
  · rename_i offset hoffset
    split at href
    · cases href
    · rename_i executable hexec
      split at href
      · cases href
      · rename_i typeIndex htypeIndex
        split at href
        · cases href
        · rename_i typeID htypeID
          obtain ⟨h1, h2⟩ := Prod.mk.inj (Except.ok.inj href)
          exact ⟨offset, executable, typeIndex, typeID, goIndex_eq_ok hoffset, hexec,
            goIndex_eq_ok htypeIndex, goIndex_eq_ok htypeID, h1.symm, h2.symm⟩

/-- With the lookups of a local index in range, `FunctionInstanceReference`
returns. -/
theorem FunctionInstanceReference_local_ok (w : World) (m i lf : Nat) (me : moduleEngine)
    (offset : Int) (executable typeIndex typeID : Nat)
    (hme : w.engines[m]? = some me)
    (hlocal : me.module.Source.ImportFunctionCount ≤ i)
    (h1 : me.parent.functionOffsets[i - me.module.Source.ImportFunctionCount]? = some offset)
    (h2 : me.parent.executable.addrOf offset = .ok executable)
    (h3 : me.module.Source.FunctionSection[i - me.module.Source.ImportFunctionCount]? =
      some typeIndex)
    (h4 : me.module.TypeIDs[typeIndex]? = some typeID) :
    FunctionInstanceReference w m i lf =
      .ok (lf, ⟨storeFunctionInstance w.mem lf ⟨executable, me.opaquePtr, typeID, i⟩,
        w.engines.set m
          { me with localFunctionInstances := me.localFunctionInstances ++ [lf] }⟩) := by
  unfold FunctionInstanceReference
  rw [World.engine_ok hme]
  simp only [if_neg (Nat.not_lt.mpr hlocal), goIndex_ok h1, h2, goIndex_ok h3, goIndex_ok h4]

/-- C12: two successive calls of `FunctionInstanceReference` on the same local
index: when the first returns, and the allocator's address for the second is
clear of the function instances the caches keep alive, the second returns too;
the two references are unequal, and the function instances they denote have
the same code address, context address, type id and index. -/
theorem FunctionInstanceReference_twice (w w1 : World) (m i lf1 lf2 r1 : Nat)
    (me : moduleEngine)
    (hme : w.engines[m]? = some me)
    (hlocal : me.module.Source.ImportFunctionCount ≤ i)
    (hfirst : FunctionInstanceReference w m i lf1 = .ok (r1, w1))
    (halloc : w1.allocatable lf2) :
    ∃ r2 w2, FunctionInstanceReference w1 m i lf2 = .ok (r2, w2) ∧ r1 ≠ r2 ∧
      functionFromUintptr w2.mem r1 = functionFromUintptr w2.mem r2 := by
  have hm : m < w.engines.length := (List.getElem?_eq_some.mp hme).1
  obtain ⟨offset, executable, typeIndex, typeID, h1, h2, h3, h4, hr, hw1⟩ :=
    FunctionInstanceReference_local hme hlocal hfirst
  subst hr
  have hme1 : w1.engines[m]? =
      some { me with localFunctionInstances := me.localFunctionInstances ++ [r1] } := by
    rw [hw1]
    exact List.getElem?_set_self hm
  have hdis : lf2 + 24 ≤ r1 ∨ r1 + 24 ≤ lf2 :=
    halloc.2 _ (List.getElem?_mem hme1) r1 (List.mem_append_right _ (List.mem_singleton_self r1))
  have hsecond := FunctionInstanceReference_local_ok w1 m i lf2
    { me with localFunctionInstances := me.localFunctionInstances ++ [r1] }
    offset executable typeIndex typeID hme1 hlocal h1 h2 h3 h4
  refine ⟨lf2, _, hsecond, by omega, ?_⟩
  simp only
  rw [functionFromUintptr_store,
    functionFromUintptr_congr _ w1.mem r1
      (fun x hx1 hx2 => storeFunctionInstance_frame _ _ _ x (by omega)),
    hw1]
  simp only
  rw [functionFromUintptr_store]

/-- Witness of C12: the provider's function 2 is vended at 40000 and then at
40024. -/
theorem FunctionInstanceReference_twice_witness :
    ∃ r2 w2, FunctionInstanceReference Example.heap2 0 2 40024 = .ok (r2, w2) ∧ 40000 ≠ r2 ∧
      functionFromUintptr w2.mem 40000 = functionFromUintptr w2.mem r2 :=
  FunctionInstanceReference_twice Example.heap1 Example.heap2 0 2 40000 40024 40000
    Example.provider rfl (by decide) rfl (by decide)

/-- C15: after `FunctionInstanceReference` on index `i` of engine `m` the old
cache `localFunctionInstances` is a prefix of the new one. For an imported `i`
the heap, the cache included, is unchanged. For a local `i` exactly one entry
is appended, the address of a function instance holding the code address of
`i`, the engine's context address, the type id of `i` and `i` (each fitting its
field); and when the allocator's address is clear of the function instances
still alive, every function instance a cache referenced before reads as
before. -/
theorem FunctionInstanceReference_appends (w w1 : World) (m i lf ref : Nat) (me : moduleEngine)
    (hme : w.engines[m]? = some me)
    (href : FunctionInstanceReference w m i lf = .ok (ref, w1)) :
    ∃ me1, w1.engines[m]? = some me1 ∧
      me.localFunctionInstances <+: me1.localFunctionInstances ∧
      (i < me.module.Source.ImportFunctionCount → w1 = w ∧ me1 = me) ∧
      (me.module.Source.ImportFunctionCount ≤ i →
        ∃ offset executable typeIndex typeID,
          me.parent.functionOffsets[i - me.module.Source.ImportFunctionCount]? = some offset ∧
          me.parent.executable.addrOf offset = .ok executable ∧
          me.module.Source.FunctionSection[i - me.module.Source.ImportFunctionCount]? =
            some typeIndex ∧
          me.module.TypeIDs[typeIndex]? = some typeID ∧
          me1.localFunctionInstances = me.localFunctionInstances ++ [lf] ∧
          (executable < 2 ^ 64 → me.opaquePtr < 2 ^ 64 → typeID < 2 ^ 32 → i < 2 ^ 32 →
            functionFromUintptr w1.mem lf = ⟨executable, me.opaquePtr, typeID, i⟩) ∧
          (w.allocatable lf → ∀ e ∈ w.engines, ∀ a ∈ e.localFunctionInstances,
            functionFromUintptr w1.mem a = functionFromUintptr w.mem a)) := by
  have hm : m < w.engines.length := (List.getElem?_eq_some.mp hme).1
  by_cases hi : i < me.module.Source.ImportFunctionCount
  · have hw : w1 = w := by
      unfold FunctionInstanceReference at href
      rw [World.engine_ok hme] at href
      simp only [if_pos hi] at href
      split at href
      · cases href
      · exact (Prod.mk.inj (Except.ok.inj href)).2.symm
    subst hw
    exact ⟨me, hme, List.prefix_refl _, fun _ => ⟨rfl, rfl⟩, fun h => absurd hi (Nat.not_lt.mpr h)⟩
  · have hlocal : me.module.Source.ImportFunctionCount ≤ i := Nat.not_lt.mp hi
    obtain ⟨offset, executable, typeIndex, typeID, h1, h2, h3, h4, _, hw1⟩ :=
      FunctionInstanceReference_local hme hlocal href
    refine ⟨{ me with localFunctionInstances := me.localFunctionInstances ++ [lf] }, ?_,
      List.prefix_append _ _, fun h => absurd h hi, fun _ => ?_⟩
    · rw [hw1]
      exact List.getElem?_set_self hm
    · refine ⟨offset, executable, typeIndex, typeID, h1, h2, h3, h4, rfl, ?_, ?_⟩
      · intro b1 b2 b3 b4
        rw [hw1]
        simp only
        rw [functionFromUintptr_store]
        simp only [Nat.mod_eq_of_lt b1, Nat.mod_eq_of_lt b2, Nat.mod_eq_of_lt b3,
          Nat.mod_eq_of_lt b4]
      · intro halloc e he a ha
        rw [hw1]
        simp only
        have := halloc.2 e he a ha
        exact functionFromUintptr_congr _ _ a
          (fun x hx1 hx2 => storeFunctionInstance_frame _ _ _ x (by omega))

/-- Witness of C15: the second reference to the provider's function 2 extends
the cache of the provider from one entry to two. -/
theorem FunctionInstanceReference_appends_witness :
    ∃ me1, Example.heap3.engines[0]? = some me1 ∧
      [40000] <+: me1.localFunctionInstances ∧
      (2 < 0 → Example.heap3 = Example.heap2 ∧
        me1 = { Example.provider with localFunctionInstances := [40000] }) ∧
      (0 ≤ 2 →
        ∃ offset executable typeIndex typeID,
          Example.provider.parent.functionOffsets[2 - 0]? = some offset ∧
          Example.provider.parent.executable.addrOf offset = .ok executable ∧
          Example.provider.module.Source.FunctionSection[2 - 0]? = some typeIndex ∧
          Example.provider.module.TypeIDs[typeIndex]? = some typeID ∧
          me1.localFunctionInstances = [40000] ++ [40024] ∧
          (executable < 2 ^ 64 → 1000 < 2 ^ 64 → typeID < 2 ^ 32 → 2 < 2 ^ 32 →
            functionFromUintptr Example.heap3.mem 40024 = ⟨executable, 1000, typeID, 2⟩) ∧
          (Example.heap2.allocatable 40024 → ∀ e ∈ Example.heap2.engines,
            ∀ a ∈ e.localFunctionInstances,
              functionFromUintptr Example.heap3.mem a =
                functionFromUintptr Example.heap2.mem a)) :=
  FunctionInstanceReference_appends Example.heap2 Example.heap3 0 2 40024 40024
    { Example.provider with localFunctionInstances := [40000] } rfl rfl

/-! ## Two-sided frames of the context builder -/

theorem disjointExtents_symm {a b : Int × Int} (h : disjointExtents a b) :
    disjointExtents b a := by
  unfold disjointExtents at h ⊢
  omega

theorem outside_of_disjoint {a b : Int × Int} (h : disjointExtents a b) (ptr x : Nat)
    (hx : insideExtent ptr a x) : outsideExtent ptr b x := by
  unfold disjointExtents at h
  unfold insideExtent at hx
  unfold outsideExtent
  omega

/-- Any two distinct fields of a non-overlapping Offset Table are disjoint. -/
theorem moduleEngine.fields_disjoint_at (m : moduleEngine) (hdis : m.fieldsDisjoint)
    (i j : Nat) (hi : i < 9) (hj : j < 9) (hne : i ≠ j) :
    disjointExtents (m.fields.getD i (0, 0)) (m.fields.getD j (0, 0)) := by
  have hlen : m.fields.length = 9 := rfl
  have key := List.pairwise_iff_getElem.mp hdis
  rcases Nat.lt_or_gt_of_ne hne with h | h
  · have := key i j (by omega) (by omega) h
    rwa [List.getD_eq_getElem _ _ (by omega), List.getD_eq_getElem _ _ (by omega)]
  · have := key j i (by omega) (by omega) h
    rw [List.getD_eq_getElem _ _ (by omega), List.getD_eq_getElem _ _ (by omega)]
    exact disjointExtents_symm this

theorem putLocalMemory_frame {mem mem1 : Mem} {s : Slice} {off : Int}
    {mi : Option MemoryInstance} (h : putLocalMemory mem s off mi = .ok mem1) (x : Nat)
    (hx : (x : Int) < s.ptr + off ∨ (s.ptr : Int) + off + 16 ≤ x) : mem1 x = mem x := by
  unfold putLocalMemory at h
  cases mi with
  | none => cases h
  | some mi =>
    simp only at h
    split at h
    · cases h
    · rename_i mem2 hp
      rw [PutUint64_frame h x (by omega), PutUint64_frame hp x (by omega)]

theorem setupOpaque.localMemory_frame {mem mem1 : Mem} {m : moduleEngine}
    (h : setupOpaque.localMemory mem m = .ok mem1) (x : Nat)
    (hx : outsideExtent m.opaqueBuf.ptr (fieldExtent m.parent.offsets.LocalMemoryBegin 16) x) :
    mem1 x = mem x := by
  unfold setupOpaque.localMemory at h
  split at h
  · rename_i hp
    simp only [outsideExtent, fieldExtent, if_pos (ge_iff_le.mp hp)] at hx
    exact putLocalMemory_frame h x hx
  · exact congrFun (Except.ok.inj h).symm x

theorem setupOpaque.globals_frame {mem mem1 : Mem} {m : moduleEngine}
    (h : setupOpaque.globals mem m = .ok mem1) (x : Nat)
    (hx : outsideExtent m.opaqueBuf.ptr
      (fieldExtent m.parent.offsets.GlobalsBegin (8 * m.module.Globals.length)) x) :
    mem1 x = mem x := by
  unfold setupOpaque.globals at h
  split at h
  · rename_i hp
    simp only [outsideExtent, fieldExtent, if_pos (ge_iff_le.mp hp)] at hx
    exact putPointers_frame h x hx
  · exact congrFun (Except.ok.inj h).symm x

theorem setupOpaque.typeIDs_frame {mem mem1 : Mem} {m : moduleEngine}
    (h : setupOpaque.typeIDs mem m = .ok mem1) (x : Nat)
    (hx : outsideExtent m.opaqueBuf.ptr (fieldExtent m.parent.offsets.TypeIDs1stElement 8) x) :
    mem1 x = mem x := by
  unfold setupOpaque.typeIDs at h
  split at h
  · have hb := (PutUint64_ok h).1
    simp only [outsideExtent, fieldExtent, if_pos hb.1] at hx
    exact PutUint64_frame h x hx
  · exact congrFun (Except.ok.inj h).symm x

theorem setupOpaque.tables_frame {mem mem1 : Mem} {m : moduleEngine}
    (h : setupOpaque.tables mem m = .ok mem1) (x : Nat)
    (hx1 : outsideExtent m.opaqueBuf.ptr (fieldExtent m.parent.offsets.TypeIDs1stElement 8) x)
    (hx2 : outsideExtent m.opaqueBuf.ptr
      (fieldExtent m.parent.offsets.TablesBegin (8 * m.module.Tables.length)) x) :
    mem1 x = mem x := by
  unfold setupOpaque.tables at h
  split at h
  · rename_i hp
    split at h
    · cases h
    · rename_i mem2 hq
      simp only [outsideExtent, fieldExtent, if_pos (ge_iff_le.mp hp)] at hx2
      rw [putPointers_frame h x hx2, setupOpaque.typeIDs_frame hq x hx1]
  · exact congrFun (Except.ok.inj h).symm x

theorem setupOpaque.listener_frame {mem mem1 : Mem} {m : moduleEngine} {off : Int}
    {tr : Slice} (h : setupOpaque.listener mem m off tr = .ok mem1) (x : Nat)
    (hx : outsideExtent m.opaqueBuf.ptr (fieldExtent off 8) x) : mem1 x = mem x := by
  unfold setupOpaque.listener at h
  split at h
  · rename_i hp
    split at h
    · cases h
    · simp only [outsideExtent, fieldExtent, if_pos (ge_iff_le.mp hp)] at hx
      exact PutUint64_frame h x hx
  · exact congrFun (Except.ok.inj h).symm x

theorem setupOpaque.listeners_frame {mem mem1 : Mem} {m : moduleEngine}
    (h : setupOpaque.listeners mem m = .ok mem1) (x : Nat)
    (hx1 : outsideExtent m.opaqueBuf.ptr
      (fieldExtent m.parent.offsets.BeforeListenerTrampolines1stElement 8) x)
    (hx2 : outsideExtent m.opaqueBuf.ptr
      (fieldExtent m.parent.offsets.AfterListenerTrampolines1stElement 8) x) :
    mem1 x = mem x := by
  unfold setupOpaque.listeners at h
  split at h
  · cases h
  · rename_i mem2 hp
    rw [setupOpaque.listener_frame h x hx2, setupOpaque.listener_frame hp x hx1]

/-- The stages of a successful `setupOpaque`, in order. -/
theorem setupOpaque_stages {mem mem1 : Mem} {m : moduleEngine}
    (h : setupOpaque mem m = .ok mem1) :
    ∃ memA memB memC memD,
      PutUint64 mem m.opaqueBuf m.parent.offsets.ModuleInstanceOffset m.module.addr = .ok memA ∧
      setupOpaque.localMemory memA m = .ok memB ∧
      setupOpaque.globals memB m = .ok memC ∧
      setupOpaque.tables memC m = .ok memD ∧
      setupOpaque.listeners memD m = .ok mem1 := by
  unfold setupOpaque at h
  split at h
  · cases h
  · rename_i memA hA
    split at h
    · cases h
    · rename_i memB hB
      split at h
      · cases h
      · rename_i memC hC
        split at h
        · cases h
        · rename_i memD hD
          exact ⟨memA, memB, memC, memD, hA, hB, hC, hD, h⟩

/-- A byte outside every field that `setupOpaque` writes is left as it was. -/
theorem setupOpaque_frame {mem mem1 : Mem} {m : moduleEngine}
    (h : setupOpaque mem m = .ok mem1) (x : Nat)
    (h0 : outsideExtent m.opaqueBuf.ptr (fieldExtent m.parent.offsets.ModuleInstanceOffset 8) x)
    (h1 : outsideExtent m.opaqueBuf.ptr (fieldExtent m.parent.offsets.LocalMemoryBegin 16) x)
    (h4 : outsideExtent m.opaqueBuf.ptr
      (fieldExtent m.parent.offsets.GlobalsBegin (8 * m.module.Globals.length)) x)
    (h5 : outsideExtent m.opaqueBuf.ptr (fieldExtent m.parent.offsets.TypeIDs1stElement 8) x)
    (h6 : outsideExtent m.opaqueBuf.ptr
      (fieldExtent m.parent.offsets.TablesBegin (8 * m.module.Tables.length)) x)
    (h7 : outsideExtent m.opaqueBuf.ptr
      (fieldExtent m.parent.offsets.BeforeListenerTrampolines1stElement 8) x)
    (h8 : outsideExtent m.opaqueBuf.ptr
      (fieldExtent m.parent.offsets.AfterListenerTrampolines1stElement 8) x) :
    mem1 x = mem x := by
  obtain ⟨memA, memB, memC, memD, hA, hB, hC, hD, hE⟩ := setupOpaque_stages h
  have hb := (PutUint64_ok hA).1
  simp only [outsideExtent, fieldExtent, if_pos hb.1] at h0
  rw [setupOpaque.listeners_frame hE x h7 h8, setupOpaque.tables_frame hD x h5 h6,
    setupOpaque.globals_frame hC x h4, setupOpaque.localMemory_frame hB x h1,
    PutUint64_frame hA x h0]

/-- After the pointer loop the 8 bytes of entry `i` hold element `i`. -/
theorem putPointers_read {s : Slice} {l : List Nat} {mem mem1 : Mem} {off : Int}
    (h : putPointers s mem off l = .ok mem1) (i g : Nat) (hg : l[i]? = some g) :
    0 ≤ off ∧ getLE 8 mem1 (s.ptr + off.toNat + 8 * i) = g % 2 ^ 64 := by
  induction l generalizing mem off i with
  | nil => simp at hg
  | cons a rest ih =>
    simp only [putPointers] at h
    cases hp : PutUint64 mem s off a with
    | error e => rw [hp] at h; cases h
    | ok mem2 =>
      rw [hp] at h
      have hb := (PutUint64_ok hp).1
      refine ⟨hb.1, ?_⟩
      cases i with
      | zero =>
        simp only [List.getElem?_cons_zero, Option.some.injEq] at hg
        subst hg
        rw [← PutUint64_read hp]
        apply getLE_congr
        intro x hx1 hx2
        exact putPointers_frame h x (by omega)
      | succ k =>
        simp only [List.getElem?_cons_succ] at hg
        obtain ⟨_, hr⟩ := ih h k hg
        rw [← hr]
        congr 1
        omega

theorem Uint64_congr (m1 m2 : Mem) (s : Slice) (off : Int)
    (h : ∀ x : Nat, (s.ptr : Int) + off ≤ x → (x : Int) < s.ptr + off + 8 → m1 x = m2 x) :
    Uint64 m1 s off = Uint64 m2 s off := by
  unfold Uint64
  split
  · rename_i hb
    rw [getLE_congr 8 m1 m2 _ (fun x h1 h2 => h x (by omega) (by omega))]
  · rfl

theorem DoneInstantiation_host_eq (w : World) (m : Nat) (me : moduleEngine)
    (hme : w.engines[m]? = some me) (hh : me.module.Source.IsHostModule = true) :
    DoneInstantiation w m = .ok w := by
  simp [DoneInstantiation, World.engine_ok hme, hh]

theorem DoneInstantiation_ok_eq (w : World) (m : Nat) (me : moduleEngine) (mem1 : Mem)
    (hme : w.engines[m]? = some me) (hh : me.module.Source.IsHostModule = false)
    (hs : setupOpaque w.mem me = .ok mem1) :
    DoneInstantiation w m = .ok ⟨mem1, w.engines⟩ := by
  simp [DoneInstantiation, World.engine_ok hme, hh, hs]

theorem DoneInstantiation_error_eq (w : World) (m : Nat) (me : moduleEngine) (e : Fault)
    (hme : w.engines[m]? = some me) (hh : me.module.Source.IsHostModule = false)
    (hs : setupOpaque w.mem me = .error e) :
    DoneInstantiation w m = .error e := by
  simp [DoneInstantiation, World.engine_ok hme, hh, hs]

/-! ## Context builder: what it writes and what it leaves -/

/-- A byte inside the imported-memory field (number 2) or the imported-function
block (number 3) of a non-overlapping Offset Table is left as it was by
`setupOpaque`. -/
theorem setupOpaque_frame_imports {mem mem1 : Mem} {m : moduleEngine}
    (h : setupOpaque mem m = .ok mem1) (hdis : m.fieldsDisjoint) (k : Nat)
    (hk : k = 2 ∨ k = 3) (x : Nat)
    (hx : insideExtent m.opaqueBuf.ptr (m.fields.getD k (0, 0)) x) : mem1 x = mem x := by
  rcases hk with rfl | rfl
  · exact setupOpaque_frame h x
      (outside_of_disjoint (m.fields_disjoint_at hdis 2 0 (by decide) (by decide) (by decide)) _ x hx)
      (outside_of_disjoint (m.fields_disjoint_at hdis 2 1 (by decide) (by decide) (by decide)) _ x hx)
      (outside_of_disjoint (m.fields_disjoint_at hdis 2 4 (by decide) (by decide) (by decide)) _ x hx)
      (outside_of_disjoint (m.fields_disjoint_at hdis 2 5 (by decide) (by decide) (by decide)) _ x hx)
      (outside_of_disjoint (m.fields_disjoint_at hdis 2 6 (by decide) (by decide) (by decide)) _ x hx)
      (outside_of_disjoint (m.fields_disjoint_at hdis 2 7 (by decide) (by decide) (by decide)) _ x hx)
      (outside_of_disjoint (m.fields_disjoint_at hdis 2 8 (by decide) (by decide) (by decide)) _ x hx)
  · exact setupOpaque_frame h x
      (outside_of_disjoint (m.fields_disjoint_at hdis 3 0 (by decide) (by decide) (by decide)) _ x hx)
      (outside_of_disjoint (m.fields_disjoint_at hdis 3 1 (by decide) (by decide) (by decide)) _ x hx)
      (outside_of_disjoint (m.fields_disjoint_at hdis 3 4 (by decide) (by decide) (by decide)) _ x hx)
      (outside_of_disjoint (m.fields_disjoint_at hdis 3 5 (by decide) (by decide) (by decide)) _ x hx)
      (outside_of_disjoint (m.fields_disjoint_at hdis 3 6 (by decide) (by decide) (by decide)) _ x hx)
      (outside_of_disjoint (m.fields_disjoint_at hdis 3 7 (by decide) (by decide) (by decide)) _ x hx)
      (outside_of_disjoint (m.fields_disjoint_at hdis 3 8 (by decide) (by decide) (by decide)) _ x hx)

/-- A byte of import slot `s` lies in the imported-function block. -/
theorem slot_inside_block (m : moduleEngine) (s x : Nat)
    (hs : s < m.module.Source.ImportFunctionCount)
    (hb : 0 ≤ m.parent.offsets.ImportedFunctionsBegin)
    (h1 : (m.opaqueBuf.ptr : Int) + m.parent.offsets.ImportedFunctionsBegin + 24 * s ≤ x)
    (h2 : (x : Int) < m.opaqueBuf.ptr + m.parent.offsets.ImportedFunctionsBegin + 24 * s + 24) :
    insideExtent m.opaqueBuf.ptr (m.fields.getD 3 (0, 0)) x := by
  show insideExtent m.opaqueBuf.ptr (fieldExtent m.parent.offsets.ImportedFunctionsBegin
    (24 * m.module.Source.ImportFunctionCount)) x
  simp only [insideExtent, fieldExtent, if_pos hb]
  have : (s : Int) < m.module.Source.ImportFunctionCount := by exact_mod_cast hs
  omega

/-- C13: for an engine whose Offset Table fields are pairwise non-overlapping,
`setupOpaque` leaves every byte of the imported-memory field
(`ImportedMemoryBegin` .. +16) and of each 24-byte imported-function slot as it
was; hence after `DoneInstantiation` the imported-memory pair and the triple
of every imported function read as before. -/
theorem setupOpaque_keeps_imports (m : moduleEngine) (hdis : m.fieldsDisjoint) :
    (∀ mem mem1, setupOpaque mem m = .ok mem1 →
      (∀ x, insideExtent m.opaqueBuf.ptr
          (fieldExtent m.parent.offsets.ImportedMemoryBegin 16) x → mem1 x = mem x) ∧
      (∀ s x : Nat, s < m.module.Source.ImportFunctionCount →
        0 ≤ m.parent.offsets.ImportedFunctionsBegin →
        (m.opaqueBuf.ptr : Int) + m.parent.offsets.ImportedFunctionsBegin + 24 * s ≤ x →
        (x : Int) < m.opaqueBuf.ptr + m.parent.offsets.ImportedFunctionsBegin + 24 * s + 24 →
        mem1 x = mem x)) ∧
    (∀ w w1 id, w.engines[id]? = some m → DoneInstantiation w id = .ok w1 →
      importedMemoryPair w1 id = importedMemoryPair w id ∧
      ∀ s, s < m.module.Source.ImportFunctionCount →
        0 ≤ m.parent.offsets.ImportedFunctionsBegin →
        importedFunctionTriple w1 id s = importedFunctionTriple w id s) := by
  have bytes : ∀ mem mem1, setupOpaque mem m = .ok mem1 →
      (∀ x, insideExtent m.opaqueBuf.ptr
          (fieldExtent m.parent.offsets.ImportedMemoryBegin 16) x → mem1 x = mem x) ∧
      (∀ s x : Nat, s < m.module.Source.ImportFunctionCount →
        0 ≤ m.parent.offsets.ImportedFunctionsBegin →
        (m.opaqueBuf.ptr : Int) + m.parent.offsets.ImportedFunctionsBegin + 24 * s ≤ x →
        (x : Int) < m.opaqueBuf.ptr + m.parent.offsets.ImportedFunctionsBegin + 24 * s + 24 →
        mem1 x = mem x) := by
    intro mem mem1 h
    exact ⟨fun x hx => setupOpaque_frame_imports h hdis 2 (Or.inl rfl) x hx,
      fun s x hs hb h1 h2 =>
        setupOpaque_frame_imports h hdis 3 (Or.inr rfl) x (slot_inside_block m s x hs hb h1 h2)⟩
  refine ⟨bytes, ?_⟩
  intro w w1 id hme hdone
  by_cases hh : m.module.Source.IsHostModule = true
  · have := (DoneInstantiation_host_eq w id m hme hh)
    rw [this] at hdone
    rw [← Except.ok.inj hdone]
    exact ⟨rfl, fun _ _ _ => rfl⟩
  · have hh2 : m.module.Source.IsHostModule = false := by simpa using hh
    cases hs : setupOpaque w.mem m with
    | error e =>
      rw [DoneInstantiation_error_eq w id m e hme hh2 hs] at hdone
      cases hdone
    | ok mem1 =>
      rw [DoneInstantiation_ok_eq w id m mem1 hme hh2 hs] at hdone
      rw [← Except.ok.inj hdone]
      obtain ⟨hmemory, hslots⟩ := bytes w.mem mem1 hs
      constructor
      · simp only [importedMemoryPair, World.engine, hme]
        by_cases hb : 0 ≤ m.parent.offsets.ImportedMemoryBegin
        · rw [Uint64_congr mem1 w.mem m.opaqueBuf m.parent.offsets.ImportedMemoryBegin
              (fun x h1 h2 => hmemory x (by
                simp only [insideExtent, fieldExtent, if_pos hb]; omega)),
            Uint64_congr mem1 w.mem m.opaqueBuf (m.parent.offsets.ImportedMemoryBegin + 8)
              (fun x h1 h2 => hmemory x (by
                simp only [insideExtent, fieldExtent, if_pos hb]; omega))]
        · simp only [Uint64, hb, false_and, if_false]
      · intro s hs2 hb
        simp only [importedFunctionTriple, World.engine, hme,
          ModuleContextOffsetData.ImportedFunctionOffset]
        rw [Uint64_congr mem1 w.mem m.opaqueBuf
              (m.parent.offsets.ImportedFunctionsBegin + (s : Int) * 24)
              (fun x h1 h2 => hslots s x hs2 hb (by omega) (by omega)),
          Uint64_congr mem1 w.mem m.opaqueBuf
              (m.parent.offsets.ImportedFunctionsBegin + (s : Int) * 24 + 8)
              (fun x h1 h2 => hslots s x hs2 hb (by omega) (by omega)),
          Uint64_congr mem1 w.mem m.opaqueBuf
              (m.parent.offsets.ImportedFunctionsBegin + (s : Int) * 24 + 16)
              (fun x h1 h2 => hslots s x hs2 hb (by omega) (by omega))]

/-- Witness of C13: engine 2 of the builder heap, with imported memory at byte 8
and one imported-function slot at byte 24, is finalised. -/
theorem setupOpaque_keeps_imports_witness :
    importedMemoryPair (Example.heapOf Example.builderHeap
        (DoneInstantiation Example.builderHeap 2)) 2 =
      importedMemoryPair Example.builderHeap 2 ∧
    importedFunctionTriple (Example.heapOf Example.builderHeap
        (DoneInstantiation Example.builderHeap 2)) 2 0 =
      importedFunctionTriple Example.builderHeap 2 0 :=
  ⟨((setupOpaque_keeps_imports Example.fullImporting (by decide)).2 Example.builderHeap
      (Example.heapOf Example.builderHeap (DoneInstantiation Example.builderHeap 2)) 2 rfl rfl).1,
    ((setupOpaque_keeps_imports Example.fullImporting (by decide)).2 Example.builderHeap
      (Example.heapOf Example.builderHeap (DoneInstantiation Example.builderHeap 2)) 2 rfl rfl).2
      0 (by decide) (by decide)⟩

/-- With `GlobalsBegin` absent the globals do not enter `setupOpaque`. -/
theorem setupOpaque_without_globals (mem : Mem) (m : moduleEngine) (globals : List Nat)
    (hg : m.parent.offsets.GlobalsBegin < 0) :
    setupOpaque mem { m with module := { m.module with Globals := globals } } =
      setupOpaque mem m := by
  simp only [setupOpaque, setupOpaque.localMemory, setupOpaque.globals, setupOpaque.tables,
    setupOpaque.typeIDs, setupOpaque.listeners, setupOpaque.listener, ge_iff_le,
    not_le.mpr hg, if_false]

/-- With `TablesBegin` absent neither the tables nor the type ids enter
`setupOpaque`. -/
theorem setupOpaque_without_tables (mem : Mem) (m : moduleEngine) (tables typeIDs : List Nat)
    (typeIDsPtr : Nat) (ht : m.parent.offsets.TablesBegin < 0) :
    setupOpaque mem { m with module := { m.module with
        Tables := tables, TypeIDs := typeIDs, TypeIDsPtr := typeIDsPtr } } =
      setupOpaque mem m := by
  simp only [setupOpaque, setupOpaque.localMemory, setupOpaque.globals, setupOpaque.tables,
    setupOpaque.typeIDs, setupOpaque.listeners, setupOpaque.listener, ge_iff_le,
    not_le.mpr ht, if_false]

/-- With no type id the address of the first type id does not enter
`setupOpaque`. -/
theorem setupOpaque_without_typeIDs (mem : Mem) (m : moduleEngine) (typeIDsPtr : Nat)
    (he : m.module.TypeIDs = []) :
    setupOpaque mem { m with module := { m.module with TypeIDsPtr := typeIDsPtr } } =
      setupOpaque mem m := by
  simp only [setupOpaque, setupOpaque.localMemory, setupOpaque.globals, setupOpaque.tables,
    setupOpaque.typeIDs, setupOpaque.listeners, setupOpaque.listener, he, List.length_nil,
    gt_iff_lt, Nat.lt_irrefl, if_false]

/-- With `GlobalsBegin` absent `setupOpaque` writes inside the other fields
only. -/
theorem setupOpaque_frame_without_globals {mem mem1 : Mem} {m : moduleEngine}
    (h : setupOpaque mem m = .ok mem1) (hg : m.parent.offsets.GlobalsBegin < 0) (x : Nat)
    (h0 : outsideExtent m.opaqueBuf.ptr (fieldExtent m.parent.offsets.ModuleInstanceOffset 8) x)
    (h1 : outsideExtent m.opaqueBuf.ptr (fieldExtent m.parent.offsets.LocalMemoryBegin 16) x)
    (h5 : outsideExtent m.opaqueBuf.ptr (fieldExtent m.parent.offsets.TypeIDs1stElement 8) x)
    (h6 : outsideExtent m.opaqueBuf.ptr
      (fieldExtent m.parent.offsets.TablesBegin (8 * m.module.Tables.length)) x)
    (h7 : outsideExtent m.opaqueBuf.ptr
      (fieldExtent m.parent.offsets.BeforeListenerTrampolines1stElement 8) x)
    (h8 : outsideExtent m.opaqueBuf.ptr
      (fieldExtent m.parent.offsets.AfterListenerTrampolines1stElement 8) x) :
    mem1 x = mem x := by
  refine setupOpaque_frame h x h0 h1 ?_ h5 h6 h7 h8
  simp only [outsideExtent, fieldExtent, if_neg (not_le.mpr hg)]
  omega

/-- With `TablesBegin` absent `setupOpaque` writes inside the self pointer, the
local memory, the globals and the listener fields only. -/
theorem setupOpaque_frame_without_tables {mem mem1 : Mem} {m : moduleEngine}
    (h : setupOpaque mem m = .ok mem1) (ht : m.parent.offsets.TablesBegin < 0) (x : Nat)
    (h0 : outsideExtent m.opaqueBuf.ptr (fieldExtent m.parent.offsets.ModuleInstanceOffset 8) x)
    (h1 : outsideExtent m.opaqueBuf.ptr (fieldExtent m.parent.offsets.LocalMemoryBegin 16) x)
    (h4 : outsideExtent m.opaqueBuf.ptr
      (fieldExtent m.parent.offsets.GlobalsBegin (8 * m.module.Globals.length)) x)
    (h7 : outsideExtent m.opaqueBuf.ptr
      (fieldExtent m.parent.offsets.BeforeListenerTrampolines1stElement 8) x)
    (h8 : outsideExtent m.opaqueBuf.ptr
      (fieldExtent m.parent.offsets.AfterListenerTrampolines1stElement 8) x) :
    mem1 x = mem x := by
  obtain ⟨memA, memB, memC, memD, hA, hB, hC, hD, hE⟩ := setupOpaque_stages h
  have hb := (PutUint64_ok hA).1
  simp only [outsideExtent, fieldExtent, if_pos hb.1] at h0
  unfold setupOpaque.tables at hD
  rw [if_neg (by omega)] at hD
  rw [setupOpaque.listeners_frame hE x h7 h8, ← Except.ok.inj hD,
    setupOpaque.globals_frame hC x h4, setupOpaque.localMemory_frame hB x h1,
    PutUint64_frame hA x h0]

/-- With no type id `setupOpaque` does not write the type-id field: it writes
inside the other fields only. -/
theorem setupOpaque_frame_without_typeIDs {mem mem1 : Mem} {m : moduleEngine}
    (h : setupOpaque mem m = .ok mem1) (he : m.module.TypeIDs = []) (x : Nat)
    (h0 : outsideExtent m.opaqueBuf.ptr (fieldExtent m.parent.offsets.ModuleInstanceOffset 8) x)
    (h1 : outsideExtent m.opaqueBuf.ptr (fieldExtent m.parent.offsets.LocalMemoryBegin 16) x)
    (h4 : outsideExtent m.opaqueBuf.ptr
      (fieldExtent m.parent.offsets.GlobalsBegin (8 * m.module.Globals.length)) x)
    (h6 : outsideExtent m.opaqueBuf.ptr
      (fieldExtent m.parent.offsets.TablesBegin (8 * m.module.Tables.length)) x)
    (h7 : outsideExtent m.opaqueBuf.ptr
      (fieldExtent m.parent.offsets.BeforeListenerTrampolines1stElement 8) x)
    (h8 : outsideExtent m.opaqueBuf.ptr
      (fieldExtent m.parent.offsets.AfterListenerTrampolines1stElement 8) x) :
    mem1 x = mem x := by
  obtain ⟨memA, memB, memC, memD, hA, hB, hC, hD, hE⟩ := setupOpaque_stages h
  have hb := (PutUint64_ok hA).1
  simp only [outsideExtent, fieldExtent, if_pos hb.1] at h0
  have hDC : memD x = memC x := by
    unfold setupOpaque.tables at hD
    split at hD
    · rename_i hp
      have hT : setupOpaque.typeIDs memC m = .ok memC := by
        unfold setupOpaque.typeIDs
        rw [if_neg (by simp [he])]
      rw [hT] at hD
      simp only at hD
      simp only [outsideExtent, fieldExtent, if_pos (ge_iff_le.mp hp)] at h6
      exact putPointers_frame hD x h6
    · exact congrFun (Except.ok.inj hD).symm x
  rw [setupOpaque.listeners_frame hE x h7 h8, hDC,
    setupOpaque.globals_frame hC x h4, setupOpaque.localMemory_frame hB x h1,
    PutUint64_frame hA x h0]

/-- C16: for an engine with non-overlapping Offset Table fields whose globals
are addressed within 64 bits: when `GlobalsBegin` = `g` is present, after
`setupOpaque` the 8 bytes at `g + 8 * i` hold the address of global `i`, for
every `i` below the number of globals, in declaration order; when
`GlobalsBegin` is absent the globals block writes nothing, `setupOpaque` gives
the same memory whatever the globals are, and it leaves every byte outside the
other fields it writes as it was: no global address is written anywhere. -/
theorem setupOpaque_globals (mem mem1 : Mem) (m : moduleEngine)
    (h : setupOpaque mem m = .ok mem1) (hdis : m.fieldsDisjoint)
    (hfit : ∀ g ∈ m.module.Globals, g < 2 ^ 64) :
    (0 ≤ m.parent.offsets.GlobalsBegin → ∀ i g, m.module.Globals[i]? = some g →
      getLE 8 mem1 (m.opaqueBuf.ptr + m.parent.offsets.GlobalsBegin.toNat + 8 * i) = g) ∧
    (m.parent.offsets.GlobalsBegin < 0 → ∀ mem2, setupOpaque.globals mem2 m = .ok mem2) ∧
    (m.parent.offsets.GlobalsBegin < 0 →
      (∀ globals,
        setupOpaque mem { m with module := { m.module with Globals := globals } } = .ok mem1) ∧
      (∀ x,
        outsideExtent m.opaqueBuf.ptr (fieldExtent m.parent.offsets.ModuleInstanceOffset 8) x →
        outsideExtent m.opaqueBuf.ptr (fieldExtent m.parent.offsets.LocalMemoryBegin 16) x →
        outsideExtent m.opaqueBuf.ptr (fieldExtent m.parent.offsets.TypeIDs1stElement 8) x →
        outsideExtent m.opaqueBuf.ptr
          (fieldExtent m.parent.offsets.TablesBegin (8 * m.module.Tables.length)) x →
        outsideExtent m.opaqueBuf.ptr
          (fieldExtent m.parent.offsets.BeforeListenerTrampolines1stElement 8) x →
        outsideExtent m.opaqueBuf.ptr
          (fieldExtent m.parent.offsets.AfterListenerTrampolines1stElement 8) x →
        mem1 x = mem x)) := by
  refine ⟨?_, ?_, ?_⟩
  · intro hg i g hi
    obtain ⟨memA, memB, memC, memD, hA, hB, hC, hD, hE⟩ := setupOpaque_stages h
    have hput : putPointers m.opaqueBuf memB m.parent.offsets.GlobalsBegin m.module.Globals =
        .ok memC := by
      unfold setupOpaque.globals at hC
      rwa [if_pos (ge_iff_le.mpr hg)] at hC
    obtain ⟨_, hread⟩ := putPointers_read hput i g hi
    rw [Nat.mod_eq_of_lt (hfit g (List.getElem?_mem hi))] at hread
    rw [← hread]
    apply getLE_congr
    intro x hx1 hx2
    have hlt : i < m.module.Globals.length := (List.getElem?_eq_some.mp hi).1
    have hin : insideExtent m.opaqueBuf.ptr (m.fields.getD 4 (0, 0)) x := by
      show insideExtent m.opaqueBuf.ptr (fieldExtent m.parent.offsets.GlobalsBegin
        (8 * m.module.Globals.length)) x
      simp only [insideExtent, fieldExtent, if_pos hg]
      have : (i : Int) < m.module.Globals.length := by exact_mod_cast hlt
      omega
    rw [setupOpaque.listeners_frame hE x
        (outside_of_disjoint (m.fields_disjoint_at hdis 4 7 (by decide) (by decide) (by decide))
          _ x hin)
        (outside_of_disjoint (m.fields_disjoint_at hdis 4 8 (by decide) (by decide) (by decide))
          _ x hin),
      setupOpaque.tables_frame hD x
        (outside_of_disjoint (m.fields_disjoint_at hdis 4 5 (by decide) (by decide) (by decide))
          _ x hin)
        (outside_of_disjoint (m.fields_disjoint_at hdis 4 6 (by decide) (by decide) (by decide))
          _ x hin)]
  · intro hg mem2
    unfold setupOpaque.globals
    rw [if_neg (by omega)]
  · intro hg
    refine ⟨fun globals => ?_, fun x h0 h1 h5 h6 h7 h8 =>
      setupOpaque_frame_without_globals h hg x h0 h1 h5 h6 h7 h8⟩
    rw [setupOpaque_without_globals mem m globals hg]
    exact h

/-- Witness of C16: the full module has globals at 9800 and 9810 and
`GlobalsBegin` = 48 in the buffer at 9000. -/
theorem setupOpaque_globals_witness :
    getLE 8 Example.builtMem (9000 + 48 + 8 * 0) = 9800 ∧
      getLE 8 Example.builtMem (9000 + 48 + 8 * 1) = 9810 :=
  ⟨(setupOpaque_globals (fun _ => 1) Example.builtMem Example.full rfl (by decide)
      (by decide)).1 (by decide) 0 9800 rfl,
    (setupOpaque_globals (fun _ => 1) Example.builtMem Example.full rfl (by decide)
      (by decide)).1 (by decide) 1 9810 rfl⟩

/-- C17: for an engine with non-overlapping Offset Table fields whose table and
type-id addresses fit 64 bits: when `TablesBegin` is present, after
`setupOpaque` the 8 bytes at `TypeIDs1stElement` hold the address of the first
type id (the type-id table being non-empty) and the 8 bytes at
`TablesBegin + 8 * i` hold the address of table `i`, in declaration order; when
`TablesBegin` is absent the tables block, the type-id write included, writes
nothing; and with no type id the type-id write does nothing, so `TypeIDs[0]` is
not addressed. Of `setupOpaque` as a whole: when `TablesBegin` is absent it
gives the same memory whatever the tables, the type ids and the address of the
first type id are, it leaves every byte of the type-id field as it was, and it
leaves every byte outside the self pointer, local memory, globals and listener
fields as it was; with no type id it gives the same memory whatever the
address of the first type id is and leaves the type-id field as it was. -/
theorem setupOpaque_tables (mem mem1 : Mem) (m : moduleEngine)
    (h : setupOpaque mem m = .ok mem1) (hdis : m.fieldsDisjoint)
    (hfit : ∀ t ∈ m.module.Tables, t < 2 ^ 64) (hfitT : m.module.TypeIDsPtr < 2 ^ 64) :
    (0 ≤ m.parent.offsets.TablesBegin →
      (m.module.TypeIDs ≠ [] →
        getLE 8 mem1 (m.opaqueBuf.ptr + m.parent.offsets.TypeIDs1stElement.toNat) =
          m.module.TypeIDsPtr) ∧
      ∀ i t, m.module.Tables[i]? = some t →
        getLE 8 mem1 (m.opaqueBuf.ptr + m.parent.offsets.TablesBegin.toNat + 8 * i) = t) ∧
    (m.parent.offsets.TablesBegin < 0 → ∀ mem2, setupOpaque.tables mem2 m = .ok mem2) ∧
    (m.module.TypeIDs = [] → ∀ mem2, setupOpaque.typeIDs mem2 m = .ok mem2) ∧
    (m.parent.offsets.TablesBegin < 0 →
      (∀ tables typeIDs typeIDsPtr,
        setupOpaque mem { m with module := { m.module with
          Tables := tables, TypeIDs := typeIDs, TypeIDsPtr := typeIDsPtr } } = .ok mem1) ∧
      (∀ x, insideExtent m.opaqueBuf.ptr
          (fieldExtent m.parent.offsets.TypeIDs1stElement 8) x → mem1 x = mem x) ∧
      (∀ x,
        outsideExtent m.opaqueBuf.ptr (fieldExtent m.parent.offsets.ModuleInstanceOffset 8) x →
        outsideExtent m.opaqueBuf.ptr (fieldExtent m.parent.offsets.LocalMemoryBegin 16) x →
        outsideExtent m.opaqueBuf.ptr
          (fieldExtent m.parent.offsets.GlobalsBegin (8 * m.module.Globals.length)) x →
        outsideExtent m.opaqueBuf.ptr
          (fieldExtent m.parent.offsets.BeforeListenerTrampolines1stElement 8) x →
        outsideExtent m.opaqueBuf.ptr
          (fieldExtent m.parent.offsets.AfterListenerTrampolines1stElement 8) x →
        mem1 x = mem x)) ∧
    (m.module.TypeIDs = [] →
      (∀ typeIDsPtr,
        setupOpaque mem { m with module := { m.module with TypeIDsPtr := typeIDsPtr } } =
          .ok mem1) ∧
      (∀ x, insideExtent m.opaqueBuf.ptr
          (fieldExtent m.parent.offsets.TypeIDs1stElement 8) x → mem1 x = mem x)) := by
  refine ⟨?_, ?_, ?_, ?_, ?_⟩
  · intro ht
    obtain ⟨memA, memB, memC, memD, hA, hB, hC, hD, hE⟩ := setupOpaque_stages h
    unfold setupOpaque.tables at hD
    rw [if_pos (ge_iff_le.mpr ht)] at hD
    cases hT : setupOpaque.typeIDs memC m with
    | error e => rw [hT] at hD; cases hD
    | ok memT =>
      rw [hT] at hD
      simp only at hD
      constructor
      · intro hne
        have hpos : m.module.TypeIDs.length > 0 := List.length_pos.mpr hne
        unfold setupOpaque.typeIDs at hT
        rw [if_pos hpos] at hT
        have hb := (PutUint64_ok hT).1
        have hread := PutUint64_read hT
        rw [Nat.mod_eq_of_lt hfitT] at hread
        rw [← hread]
        apply getLE_congr
        intro x hx1 hx2
        have hin : insideExtent m.opaqueBuf.ptr (m.fields.getD 5 (0, 0)) x := by
          show insideExtent m.opaqueBuf.ptr
            (fieldExtent m.parent.offsets.TypeIDs1stElement 8) x
          simp only [insideExtent, fieldExtent, if_pos hb.1]
          omega
        have hout6 : outsideExtent m.opaqueBuf.ptr (fieldExtent m.parent.offsets.TablesBegin
            (8 * m.module.Tables.length)) x :=
          outside_of_disjoint
            (m.fields_disjoint_at hdis 5 6 (by decide) (by decide) (by decide)) _ x hin
        simp only [outsideExtent, fieldExtent, if_pos ht] at hout6
        rw [setupOpaque.listeners_frame hE x
            (outside_of_disjoint
              (m.fields_disjoint_at hdis 5 7 (by decide) (by decide) (by decide)) _ x hin)
            (outside_of_disjoint
              (m.fields_disjoint_at hdis 5 8 (by decide) (by decide) (by decide)) _ x hin),
          putPointers_frame hD x hout6]
      · intro i t hi
        obtain ⟨_, hread⟩ := putPointers_read hD i t hi
        rw [Nat.mod_eq_of_lt (hfit t (List.getElem?_mem hi))] at hread
        rw [← hread]
        apply getLE_congr
        intro x hx1 hx2
        have hlt : i < m.module.Tables.length := (List.getElem?_eq_some.mp hi).1
        have hin : insideExtent m.opaqueBuf.ptr (m.fields.getD 6 (0, 0)) x := by
          show insideExtent m.opaqueBuf.ptr (fieldExtent m.parent.offsets.TablesBegin
            (8 * m.module.Tables.length)) x
          simp only [insideExtent, fieldExtent, if_pos ht]
          have : (i : Int) < m.module.Tables.length := by exact_mod_cast hlt
          omega
        exact setupOpaque.listeners_frame hE x
          (outside_of_disjoint
            (m.fields_disjoint_at hdis 6 7 (by decide) (by decide) (by decide)) _ x hin)
          (outside_of_disjoint
            (m.fields_disjoint_at hdis 6 8 (by decide) (by decide) (by decide)) _ x hin)
  · intro ht mem2
    unfold setupOpaque.tables
    rw [if_neg (by omega)]
  · intro he mem2
    unfold setupOpaque.typeIDs
    rw [if_neg (by simp [he])]
  · intro ht
    refine ⟨fun tables typeIDs typeIDsPtr => ?_, fun x hin => ?_,
      fun x h0 h1 h4 h7 h8 => setupOpaque_frame_without_tables h ht x h0 h1 h4 h7 h8⟩
    · rw [setupOpaque_without_tables mem m tables typeIDs typeIDsPtr ht]
      exact h
    · have hin5 : insideExtent m.opaqueBuf.ptr (m.fields.getD 5 (0, 0)) x := hin
      exact setupOpaque_frame_without_tables h ht x
        (outside_of_disjoint
          (m.fields_disjoint_at hdis 5 0 (by decide) (by decide) (by decide)) _ x hin5)
        (outside_of_disjoint
          (m.fields_disjoint_at hdis 5 1 (by decide) (by decide) (by decide)) _ x hin5)
        (outside_of_disjoint
          (m.fields_disjoint_at hdis 5 4 (by decide) (by decide) (by decide)) _ x hin5)
        (outside_of_disjoint
          (m.fields_disjoint_at hdis 5 7 (by decide) (by decide) (by decide)) _ x hin5)
        (outside_of_disjoint
          (m.fields_disjoint_at hdis 5 8 (by decide) (by decide) (by decide)) _ x hin5)
  · intro he
    refine ⟨fun typeIDsPtr => ?_, fun x hin => ?_⟩
    · rw [setupOpaque_without_typeIDs mem m typeIDsPtr he]
      exact h
    · have hin5 : insideExtent m.opaqueBuf.ptr (m.fields.getD 5 (0, 0)) x := hin
      exact setupOpaque_frame_without_typeIDs h he x
        (outside_of_disjoint
          (m.fields_disjoint_at hdis 5 0 (by decide) (by decide) (by decide)) _ x hin5)
        (outside_of_disjoint
          (m.fields_disjoint_at hdis 5 1 (by decide) (by decide) (by decide)) _ x hin5)
        (outside_of_disjoint
          (m.fields_disjoint_at hdis 5 4 (by decide) (by decide) (by decide)) _ x hin5)
        (outside_of_disjoint
          (m.fields_disjoint_at hdis 5 6 (by decide) (by decide) (by decide)) _ x hin5)
        (outside_of_disjoint
          (m.fields_disjoint_at hdis 5 7 (by decide) (by decide) (by decide)) _ x hin5)
        (outside_of_disjoint
          (m.fields_disjoint_at hdis 5 8 (by decide) (by decide) (by decide)) _ x hin5)

/-- Witness of C17: the full module has its type ids at 9600, one table at 9900,
`TypeIDs1stElement` = 64 and `TablesBegin` = 72 in the buffer at 9000; in the
same module without tables (`TablesBegin` absent) the first byte of the type-id
field, at 9064, keeps the value 1 it had before `setupOpaque`. -/
theorem setupOpaque_tables_witness :
    getLE 8 Example.builtMem (9000 + 64) = 9600 ∧
      getLE 8 Example.builtMem (9000 + 72 + 8 * 0) = 9900 ∧
      Example.builtNoTablesMem 9064 = 1 :=
  ⟨((setupOpaque_tables (fun _ => 1) Example.builtMem Example.full rfl (by decide)
      (by decide) (by decide)).1 (by decide)).1 (by decide),
    ((setupOpaque_tables (fun _ => 1) Example.builtMem Example.full rfl (by decide)
      (by decide) (by decide)).1 (by decide)).2 0 9900 rfl,
    ((setupOpaque_tables (fun _ => 1) Example.builtNoTablesMem Example.fullNoTables rfl
      (by decide) (by decide) (by decide)).2.2.2.1 (by decide)).2.1 9064 (by decide)⟩

/-! ## Termination of import resolution -/

theorem providerOf_acc (w : World) (hac : acyclicProviders w) (x : Nat) :
    Acc (providerOf w) x := by
  have hout : ∀ y, ¬ y < w.engines.length → Acc (providerOf w) y := by
    intro y hy
    refine Acc.intro y (fun z hz => ?_)
    obtain ⟨e, d, he, _, _⟩ := hz
    exact absurd (List.getElem?_eq_some.mp he).1 hy
  by_cases hx : x < w.engines.length
  · let r : Fin w.engines.length → Fin w.engines.length → Prop :=
      fun a b => Relation.TransGen (providerOf w) a.val b.val
    haveI : IsTrans (Fin w.engines.length) r :=
      ⟨fun a b c h1 h2 => Relation.TransGen.trans h1 h2⟩
    haveI : IsIrrefl (Fin w.engines.length) r := ⟨fun a h => hac a.val h⟩
    have wf : WellFounded r := Finite.wellFounded_of_trans_of_irrefl r
    have key : ∀ a : Fin w.engines.length, Acc (providerOf w) a.val := by
      intro a
      refine @WellFounded.induction _ r wf (fun c => Acc (providerOf w) c.val) a (fun b ih => ?_)
      refine Acc.intro b.val (fun y hy => ?_)
      by_cases hy2 : y < w.engines.length
      · exact ih ⟨y, hy2⟩ (Relation.TransGen.single hy)
      · exact hout y hy2
    exact key ⟨x, hx⟩
  · exact hout x hx

theorem acyclic_of_providersBelow (w : World) (h : providersBelow w) : acyclicProviders w := by
  have step : ∀ y x, providerOf w y x → y < x := by
    intro y x hyx
    obtain ⟨e, d, he, hd, hy⟩ := hyx
    have hx := (List.getElem?_eq_some.mp he).1
    have := h x hx d (by rw [he]; exact hd)
    unfold importedFunction.providerBelow at this
    rw [hy] at this
    exact this
  have trans : ∀ a b, Relation.TransGen (providerOf w) a b → a < b := by
    intro a b hab
    induction hab with
    | single h1 => exact step _ _ h1
    | tail _ h2 ih => exact Nat.lt_trans ih (step _ _ h2)
  intro x hx
  exact Nat.lt_irrefl x (trans x x hx)

theorem chainWalk_resolved (fuel : Nat) (w : World) (p j : Nat)
    (h : chainWalk fuel w p j = true) : chainResolved w p j := by
  induction fuel generalizing p j with
  | zero => simp [chainWalk] at h
  | succ fuel ih =>
    intro x i e d hreach hx hd
    rcases Relation.ReflTransGen.cases_head hreach with heq | ⟨c, hstep, hrest⟩
    · obtain ⟨h1, h2⟩ := Prod.mk.inj heq
      subst h1
      subst h2
      simp only [chainWalk, hx, hd] at h
      cases hme : d.me with
      | none => rw [hme] at h; simp at h
      | some y =>
        rw [hme] at h
        simp only [Bool.and_eq_true, decide_eq_true_eq] at h
        exact ⟨y, rfl, h.1⟩
    · obtain ⟨e1, he1, hd1⟩ := hstep
      simp only [chainWalk, he1, hd1, Bool.and_eq_true, decide_eq_true_eq] at h
      exact ih c.1 c.2 h.2 x i e d hrest hx hd

theorem ResolveImportedFunction_step (fuel : Nat) (w : World) (m s j p y : Nat)
    (me pe : moduleEngine) (d : importedFunction)
    (hme : w.engines[m]? = some me) (hpe : w.engines[p]? = some pe)
    (hd : pe.importedFunctions[j]? = some d) (hy : d.me = some y) :
    ResolveImportedFunction (fuel + 1) w m s j p =
      ResolveImportedFunction fuel w m s d.indexInModule y := by
  have hj : ¬ pe.importedFunctions.length ≤ j := by
    have := (List.getElem?_eq_some.mp hd).1
    omega
  simp only [ResolveImportedFunction, World.engine_ok hme, World.engine_ok hpe, ge_iff_le, hj,
    if_false, goIndex_ok hd, hy]

theorem ResolveImportedFunction_terminal_fuel (fuel : Nat) (w : World) (m s j p : Nat)
    (me pe : moduleEngine)
    (hme : w.engines[m]? = some me) (hpe : w.engines[p]? = some pe)
    (hj : pe.importedFunctions.length ≤ j) :
    ResolveImportedFunction (fuel + 1) w m s j p = ResolveImportedFunction 1 w m s j p := by
  show ResolveImportedFunction (fuel + 1) w m s j p = ResolveImportedFunction (0 + 1) w m s j p
  simp only [ResolveImportedFunction, World.engine_ok hme, World.engine_ok hpe, ge_iff_le, hj,
    if_true]

theorem goIndex_fault {α : Type} {l : List α} {i : Nat} {e : Fault}
    (h : goIndex l i = .error e) : e = .goPanic := by
  unfold goIndex at h
  split at h
  · cases h
  · exact (Except.error.inj h).symm

theorem Slice.addrOf_fault {s : Slice} {i : Int} {e : Fault}
    (h : s.addrOf i = .error e) : e = .goPanic := by
  unfold Slice.addrOf at h
  split at h
  · cases h
  · exact (Except.error.inj h).symm

theorem PutUint64_fault {mem : Mem} {s : Slice} {off : Int} {v : Nat} {e : Fault}
    (h : PutUint64 mem s off v = .error e) : e = .goPanic := by
  unfold PutUint64 at h
  split at h
  · cases h
  · exact (Except.error.inj h).symm

theorem getTypeIDOf_fault {f : Nat} {m : ModuleInstance} {e : Fault}
    (h : getTypeIDOf f m = .error e) : e = .goPanic := by
  unfold getTypeIDOf at h
  simp only at h
  split at h
  · split at h
    · rename_i e1 h1
      rw [← Except.error.inj h]
      exact goIndex_fault h1
    · exact goIndex_fault h
  · exact goIndex_fault h

/-- A terminal call that returns has changed memory by exactly three 8-byte
writes, at the three fields of slot `s` of the importer. -/
theorem ResolveImportedFunction_terminal_writes (w w1 : World) (m s j p : Nat)
    (me pe : moduleEngine)
    (hme : w.engines[m]? = some me) (hpe : w.engines[p]? = some pe)
    (hj : pe.importedFunctions.length ≤ j)
    (h : ResolveImportedFunction 1 w m s j p = .ok w1) :
    ∃ offset executable typeID,
      goIndex pe.parent.functionOffsets (j - pe.importedFunctions.length) = .ok offset ∧
      pe.parent.executable.addrOf offset = .ok executable ∧
      getTypeIDOf (j - pe.importedFunctions.length) pe.module = .ok typeID ∧
      w1.mem = putLE 8 (putLE 8 (putLE 8 w.mem
        (me.opaqueBuf.ptr + (me.parent.offsets.ImportedFunctionsBegin + (s : Int) * 24).toNat)
          executable)
        (me.opaqueBuf.ptr + (me.parent.offsets.ImportedFunctionsBegin + (s : Int) * 24).toNat + 8)
          pe.opaquePtr)
        (me.opaqueBuf.ptr + (me.parent.offsets.ImportedFunctionsBegin + (s : Int) * 24).toNat + 16)
          typeID := by
  change ResolveImportedFunction (0 + 1) w m s j p = .ok w1 at h
  unfold ResolveImportedFunction at h
  rw [World.engine_ok hme, World.engine_ok hpe] at h
  simp only [ModuleContextOffsetData.ImportedFunctionOffset, ge_iff_le, hj, if_true] at h
  split at h
  · cases h
  · rename_i offset hoffset
    split at h
    · cases h
    · rename_i typeID htypeID
      split at h
      · cases h
      · rename_i executable hexecutable
        split at h
        · cases h
        · rename_i mem1 h1
          split at h
          · cases h
          · rename_i mem2 h2
            split at h
            · cases h
            · rename_i mem3 h3
              split at h
              · have hw1 := (Except.ok.inj h).symm
                obtain ⟨hb1, rfl⟩ := PutUint64_ok h1
                obtain ⟨hb2, rfl⟩ := PutUint64_ok h2
                obtain ⟨hb3, rfl⟩ := PutUint64_ok h3
                have e2 : me.opaqueBuf.ptr +
                    (me.parent.offsets.ImportedFunctionsBegin + (s : Int) * 24 + 8).toNat =
                    me.opaqueBuf.ptr +
                      (me.parent.offsets.ImportedFunctionsBegin + (s : Int) * 24).toNat + 8 := by
                  omega
                have e3 : me.opaqueBuf.ptr +
                    (me.parent.offsets.ImportedFunctionsBegin + (s : Int) * 24 + 16).toNat =
                    me.opaqueBuf.ptr +
                      (me.parent.offsets.ImportedFunctionsBegin + (s : Int) * 24).toNat + 16 := by
                  omega
                refine ⟨offset, executable, typeID, hoffset, hexecutable, htypeID, ?_⟩
                rw [hw1, ← e2, ← e3]
              · cases h

/-- A terminal call never runs out of fuel. -/
theorem ResolveImportedFunction_terminal_fault (w : World) (m s j p : Nat)
    (me pe : moduleEngine)
    (hme : w.engines[m]? = some me) (hpe : w.engines[p]? = some pe)
    (hj : pe.importedFunctions.length ≤ j) :
    ResolveImportedFunction 1 w m s j p ≠ .error .outOfFuel := by
  intro h
  change ResolveImportedFunction (0 + 1) w m s j p = .error .outOfFuel at h
  unfold ResolveImportedFunction at h
  rw [World.engine_ok hme, World.engine_ok hpe] at h
  simp only [ModuleContextOffsetData.ImportedFunctionOffset, ge_iff_le, hj, if_true] at h
  split at h
  · rename_i e he
    rw [goIndex_fault he] at h
    cases h
  · split at h
    · rename_i e he
      rw [getTypeIDOf_fault he] at h
      cases h
    · split at h
      · rename_i e he
        rw [Slice.addrOf_fault he] at h
        cases h
      · split at h
        · rename_i e he
          rw [PutUint64_fault he] at h
          cases h
        · split at h
          · rename_i e he
            rw [PutUint64_fault he] at h
            cases h
          · split at h
            · rename_i e he
              rw [PutUint64_fault he] at h
              cases h
            · split at h <;> cases h

/-- C20: in a heap whose provider relation is acyclic, with every descriptor
consulted on the chain from function `j` of provider `p` resolved to an engine
of the heap, `ResolveImportedFunction` of importer `m`, slot `s`, index `j`
and provider `p` terminates: some fuel suffices, and with that much fuel or
more the call is the single non-recursive call on the terminal function
(`p1`, `j1`) the chain leads to. That call does not run out of fuel, and when
it returns, memory differs from before by exactly three 8-byte writes, to the
three fields of slot `s` of the importer. -/
theorem ResolveImportedFunction_terminates (w : World) (m s j p : Nat) (me : moduleEngine)
    (hme : w.engines[m]? = some me) (hp : p < w.engines.length)
    (hac : acyclicProviders w) (hres : chainResolved w p j) :
    ∃ fuel p1 j1 pe1,
      Relation.ReflTransGen (chainStep w) (p, j) (p1, j1) ∧
      w.engines[p1]? = some pe1 ∧ pe1.importedFunctions.length ≤ j1 ∧
      (∀ k, ResolveImportedFunction (fuel + k) w m s j p =
        ResolveImportedFunction 1 w m s j1 p1) ∧
      ResolveImportedFunction 1 w m s j1 p1 ≠ .error .outOfFuel ∧
      (∀ w1, ResolveImportedFunction 1 w m s j1 p1 = .ok w1 →
        ∃ offset executable typeID,
          goIndex pe1.parent.functionOffsets (j1 - pe1.importedFunctions.length) = .ok offset ∧
          pe1.parent.executable.addrOf offset = .ok executable ∧
          getTypeIDOf (j1 - pe1.importedFunctions.length) pe1.module = .ok typeID ∧
          w1.mem = putLE 8 (putLE 8 (putLE 8 w.mem
            (me.opaqueBuf.ptr +
              (me.parent.offsets.ImportedFunctionsBegin + (s : Int) * 24).toNat) executable)
            (me.opaqueBuf.ptr +
              (me.parent.offsets.ImportedFunctionsBegin + (s : Int) * 24).toNat + 8)
              pe1.opaquePtr)
            (me.opaqueBuf.ptr +
              (me.parent.offsets.ImportedFunctionsBegin + (s : Int) * 24).toNat + 16)
              typeID) := by
  have hacc := providerOf_acc w hac p
  induction hacc generalizing j with
  | intro p _ ih =>
    have hpe : w.engines[p]? = some w.engines[p] := List.getElem?_eq_getElem hp
    by_cases hj : (w.engines[p]).importedFunctions.length ≤ j
    · refine ⟨1, p, j, w.engines[p], Relation.ReflTransGen.refl, hpe, hj, fun k => ?_,
        ResolveImportedFunction_terminal_fault w m s j p me _ hme hpe hj,
        fun w1 h1 => ResolveImportedFunction_terminal_writes w w1 m s j p me _ hme hpe hj h1⟩
      rw [Nat.add_comm 1 k]
      exact ResolveImportedFunction_terminal_fuel k w m s j p me _ hme hpe hj
    · have hlt : j < (w.engines[p]).importedFunctions.length := Nat.not_le.mp hj
      have hd : (w.engines[p]).importedFunctions[j]? =
          some ((w.engines[p]).importedFunctions[j]) := List.getElem?_eq_getElem hlt
      obtain ⟨y, hy, hyn⟩ := hres p j _ _ Relation.ReflTransGen.refl hpe hd
      have hstep : chainStep w (p, j) (y, ((w.engines[p]).importedFunctions[j]).indexInModule) := by
        refine ⟨w.engines[p], hpe, ?_⟩
        rw [hd, ← hy]
      have hprov : providerOf w y p :=
        ⟨w.engines[p], _, hpe, List.getElem?_mem hd, hy⟩
      have hres2 : chainResolved w y ((w.engines[p]).importedFunctions[j]).indexInModule :=
        fun x i e d hreach => hres x i e d (Relation.ReflTransGen.head hstep hreach)
      obtain ⟨fuel, p1, j1, pe1, hchain, hpe1, hj1, hfuel, hfault, hwrites⟩ :=
        ih y hprov _ hyn hres2
      refine ⟨fuel + 1, p1, j1, pe1, Relation.ReflTransGen.head hstep hchain, hpe1, hj1,
        fun k => ?_, hfault, hwrites⟩
      have e : fuel + 1 + k = (fuel + k) + 1 := by omega
      rw [e, ResolveImportedFunction_step (fuel + k) w m s j p y me _ _ hme hpe hd hy]
      exact hfuel k

/-- Witness of C20: importer 3 binds its slot 0 to function 0 of importer 2,
whose descriptor leads to the re-exporter and from there to the provider. -/
theorem ResolveImportedFunction_terminates_witness :
    ∃ fuel p1 j1 pe1,
      Relation.ReflTransGen (chainStep Example.boundToReexporter) (2, 0) (p1, j1) ∧
      Example.boundToReexporter.engines[p1]? = some pe1 ∧
      pe1.importedFunctions.length ≤ j1 ∧
      (∀ k, ResolveImportedFunction (fuel + k) Example.boundToReexporter 3 0 0 2 =
        ResolveImportedFunction 1 Example.boundToReexporter 3 0 j1 p1) ∧
      ResolveImportedFunction 1 Example.boundToReexporter 3 0 j1 p1 ≠ .error .outOfFuel ∧
      (∀ w1, ResolveImportedFunction 1 Example.boundToReexporter 3 0 j1 p1 = .ok w1 →
        ∃ offset executable typeID,
          goIndex pe1.parent.functionOffsets (j1 - pe1.importedFunctions.length) = .ok offset ∧
          pe1.parent.executable.addrOf offset = .ok executable ∧
          getTypeIDOf (j1 - pe1.importedFunctions.length) pe1.module = .ok typeID ∧
          w1.mem = putLE 8 (putLE 8 (putLE 8 Example.boundToReexporter.mem
            ((Example.importer 4000 8000).opaqueBuf.ptr +
              ((Example.importer 4000 8000).parent.offsets.ImportedFunctionsBegin +
                ((0 : Nat) : Int) * 24).toNat) executable)
            ((Example.importer 4000 8000).opaqueBuf.ptr +
              ((Example.importer 4000 8000).parent.offsets.ImportedFunctionsBegin +
                ((0 : Nat) : Int) * 24).toNat + 8) pe1.opaquePtr)
            ((Example.importer 4000 8000).opaqueBuf.ptr +
              ((Example.importer 4000 8000).parent.offsets.ImportedFunctionsBegin +
                ((0 : Nat) : Int) * 24).toNat + 16) typeID) :=
  ResolveImportedFunction_terminates Example.boundToReexporter 3 0 0 2
    (Example.importer 4000 8000) rfl (by decide!)
    (acyclic_of_providersBelow _ (by decide!))
    (chainWalk_resolved 3 _ 2 0 (by decide!))

/-! ## Frame of import resolution -/

/-- A terminal call that returns has written three 8-byte values into slot `s`
of the importer's buffer, which has room for them, and has replaced entry `s`
of the importer's descriptor list; nothing else of the heap has changed. -/
theorem ResolveImportedFunction_terminal_shape (w w1 : World) (m s j p : Nat)
    (me pe : moduleEngine)
    (hme : w.engines[m]? = some me) (hpe : w.engines[p]? = some pe)
    (hj : pe.importedFunctions.length ≤ j)
    (h : ResolveImportedFunction 1 w m s j p = .ok w1) :
    ∃ v1 v2 v3 d,
      (0 ≤ me.parent.offsets.ImportedFunctionsBegin + (s : Int) * 24 ∧
        me.parent.offsets.ImportedFunctionsBegin + (s : Int) * 24 + 24 ≤ me.opaqueBuf.len) ∧
      s < me.importedFunctions.length ∧
      w1.mem = putLE 8 (putLE 8 (putLE 8 w.mem
        (me.opaqueBuf.ptr + (me.parent.offsets.ImportedFunctionsBegin + (s : Int) * 24).toNat) v1)
        (me.opaqueBuf.ptr + (me.parent.offsets.ImportedFunctionsBegin + (s : Int) * 24).toNat + 8)
          v2)
        (me.opaqueBuf.ptr + (me.parent.offsets.ImportedFunctionsBegin + (s : Int) * 24).toNat + 16)
          v3 ∧
      w1.engines = w.engines.set m
        { me with importedFunctions := me.importedFunctions.set s d } := by
  change ResolveImportedFunction (0 + 1) w m s j p = .ok w1 at h
  unfold ResolveImportedFunction at h
  rw [World.engine_ok hme, World.engine_ok hpe] at h
  simp only [ModuleContextOffsetData.ImportedFunctionOffset, ge_iff_le, hj, if_true] at h
  split at h
  · cases h
  · split at h
    · cases h
    · rename_i typeID _
      split at h
      · cases h
      · rename_i executable _
        split at h
        · cases h
        · rename_i mem1 h1
          split at h
          · cases h
          · rename_i mem2 h2
            split at h
            · cases h
            · rename_i mem3 h3
              split at h
              · rename_i hs
                have hw1 := (Except.ok.inj h).symm
                obtain ⟨hb1, rfl⟩ := PutUint64_ok h1
                obtain ⟨hb2, rfl⟩ := PutUint64_ok h2
                obtain ⟨hb3, rfl⟩ := PutUint64_ok h3
                have e2 : me.opaqueBuf.ptr +
                    (me.parent.offsets.ImportedFunctionsBegin + (s : Int) * 24 + 8).toNat =
                    me.opaqueBuf.ptr +
                      (me.parent.offsets.ImportedFunctionsBegin + (s : Int) * 24).toNat + 8 := by
                  omega
                have e3 : me.opaqueBuf.ptr +
                    (me.parent.offsets.ImportedFunctionsBegin + (s : Int) * 24 + 16).toNat =
                    me.opaqueBuf.ptr +
                      (me.parent.offsets.ImportedFunctionsBegin + (s : Int) * 24).toNat + 16 := by
                  omega
                refine ⟨executable, pe.opaquePtr, typeID,
                  ⟨some p, j - pe.importedFunctions.length⟩, ⟨hb1.1, by omega⟩, hs, ?_, ?_⟩
                · rw [hw1, ← e2, ← e3]
                · rw [hw1]
              · cases h

/-- Whatever the depth of the re-export chain, a call that returns has the
shape of a terminal call: three 8-byte writes into slot `s` of the importer
and a new entry `s` in its descriptor list. -/
theorem ResolveImportedFunction_shape (fuel : Nat) (w w1 : World) (m s j p : Nat)
    (me : moduleEngine) (hme : w.engines[m]? = some me)
    (h : ResolveImportedFunction fuel w m s j p = .ok w1) :
    ∃ v1 v2 v3 d,
      (0 ≤ me.parent.offsets.ImportedFunctionsBegin + (s : Int) * 24 ∧
        me.parent.offsets.ImportedFunctionsBegin + (s : Int) * 24 + 24 ≤ me.opaqueBuf.len) ∧
      s < me.importedFunctions.length ∧
      w1.mem = putLE 8 (putLE 8 (putLE 8 w.mem
        (me.opaqueBuf.ptr + (me.parent.offsets.ImportedFunctionsBegin + (s : Int) * 24).toNat) v1)
        (me.opaqueBuf.ptr + (me.parent.offsets.ImportedFunctionsBegin + (s : Int) * 24).toNat + 8)
          v2)
        (me.opaqueBuf.ptr + (me.parent.offsets.ImportedFunctionsBegin + (s : Int) * 24).toNat + 16)
          v3 ∧
      w1.engines = w.engines.set m
        { me with importedFunctions := me.importedFunctions.set s d } := by
  induction fuel generalizing j p with
  | zero => simp [ResolveImportedFunction] at h
  | succ fuel ih =>
    cases hpe : w.engines[p]? with
    | none =>
      simp only [ResolveImportedFunction, World.engine, hme, hpe] at h
      cases h
    | some pe =>
      by_cases hj : pe.importedFunctions.length ≤ j
      · rw [ResolveImportedFunction_terminal_fuel fuel w m s j p me pe hme hpe hj] at h
        exact ResolveImportedFunction_terminal_shape w w1 m s j p me pe hme hpe hj h
      · have hlt : j < pe.importedFunctions.length := Nat.not_le.mp hj
        have hd : pe.importedFunctions[j]? = some (pe.importedFunctions[j]) :=
          List.getElem?_eq_getElem hlt
        cases hy : (pe.importedFunctions[j]).me with
        | none =>
          simp only [ResolveImportedFunction, World.engine_ok hme, World.engine_ok hpe, ge_iff_le,
            hj, if_false, goIndex_ok hd, hy] at h
          cases h
        | some y =>
          rw [ResolveImportedFunction_step fuel w m s j p y me pe _ hme hpe hd hy] at h
          exact ih _ _ h

/-- C21: when `ResolveImportedFunction` of importer `m`, slot `s`, index `j` and
provider `p` returns, whatever the depth of the chain it followed:
every byte of memory outside the 24 bytes of slot `s` of the importer's buffer
is as before; the importer keeps every field but its descriptor list, and
every entry of that list other than entry `s`; every other engine is as
before; hence the triple and the descriptor of every other slot of that
engine read as before; and a provider other than the importer keeps its
descriptor list and, its buffer being a separate allocation, every byte of its
buffer. -/
theorem ResolveImportedFunction_frame (fuel : Nat) (w w1 : World) (m s j p : Nat)
    (me : moduleEngine) (hme : w.engines[m]? = some me)
    (h : ResolveImportedFunction fuel w m s j p = .ok w1) :
    (∀ x : Nat, outsideExtent me.opaqueBuf.ptr
        (me.parent.offsets.ImportedFunctionsBegin + 24 * (s : Int), 24) x →
      w1.mem x = w.mem x) ∧
    (∃ me1, w1.engines[m]? = some me1 ∧
      me1.opaquePtr = me.opaquePtr ∧ me1.parent = me.parent ∧ me1.module = me.module ∧
      me1.opaqueBuf = me.opaqueBuf ∧
      me1.localFunctionInstances = me.localFunctionInstances ∧
      me1.importedFunctions.length = me.importedFunctions.length ∧
      ∀ s2, s2 ≠ s → me1.importedFunctions[s2]? = me.importedFunctions[s2]?) ∧
    (∀ q, q ≠ m → w1.engines[q]? = w.engines[q]?) ∧
    (∀ s2, s2 ≠ s →
      importedFunctionTriple w1 m s2 = importedFunctionTriple w m s2 ∧
      importedDescriptor w1 m s2 = importedDescriptor w m s2) ∧
    (∀ pe, p ≠ m → w.engines[p]? = some pe →
      w1.engines[p]? = some pe ∧
      (pe.opaqueBuf.ptr + pe.opaqueBuf.len ≤ me.opaqueBuf.ptr ∨
          me.opaqueBuf.ptr + me.opaqueBuf.len ≤ pe.opaqueBuf.ptr →
        ∀ x, pe.opaqueBuf.ptr ≤ x → x < pe.opaqueBuf.ptr + pe.opaqueBuf.len →
          w1.mem x = w.mem x)) := by
  have hm : m < w.engines.length := (List.getElem?_eq_some.mp hme).1
  obtain ⟨v1, v2, v3, d, hb, hs, hmem, heng⟩ :=
    ResolveImportedFunction_shape fuel w w1 m s j p me hme h
  have hbytes : ∀ x : Nat, outsideExtent me.opaqueBuf.ptr
      (me.parent.offsets.ImportedFunctionsBegin + 24 * (s : Int), 24) x →
      w1.mem x = w.mem x := by
    intro x hx
    simp only [outsideExtent] at hx
    rw [hmem, putLE_outside _ _ _ _ _ (by omega), putLE_outside _ _ _ _ _ (by omega),
      putLE_outside _ _ _ _ _ (by omega)]
  have hme1 : w1.engines[m]? =
      some { me with importedFunctions := me.importedFunctions.set s d } := by
    rw [heng]
    exact List.getElem?_set_self hm
  have hother : ∀ q, q ≠ m → w1.engines[q]? = w.engines[q]? := by
    intro q hq
    rw [heng]
    exact List.getElem?_set_ne (Ne.symm hq)
  refine ⟨hbytes, ⟨_, hme1, rfl, rfl, rfl, rfl, rfl, ?_, ?_⟩, hother, ?_, ?_⟩
  · simp
  · intro s2 hs2
    exact List.getElem?_set_ne (Ne.symm hs2)
  · intro s2 hs2
    constructor
    · simp only [importedFunctionTriple, World.engine, hme1, hme,
        ModuleContextOffsetData.ImportedFunctionOffset]
      have hlt : s2 < s ∨ s < s2 := Nat.lt_or_gt_of_ne hs2
      rw [Uint64_congr w1.mem w.mem me.opaqueBuf
            (me.parent.offsets.ImportedFunctionsBegin + (s2 : Int) * 24)
            (fun x h1 h2 => hbytes x (by simp only [outsideExtent]; omega)),
        Uint64_congr w1.mem w.mem me.opaqueBuf
            (me.parent.offsets.ImportedFunctionsBegin + (s2 : Int) * 24 + 8)
            (fun x h1 h2 => hbytes x (by simp only [outsideExtent]; omega)),
        Uint64_congr w1.mem w.mem me.opaqueBuf
            (me.parent.offsets.ImportedFunctionsBegin + (s2 : Int) * 24 + 16)
            (fun x h1 h2 => hbytes x (by simp only [outsideExtent]; omega))]
    · simp only [importedDescriptor, World.engine, hme1, hme, goIndex]
      rw [List.getElem?_set_ne (Ne.symm hs2)]
  · intro pe hpm hpe
    refine ⟨by rw [hother p hpm]; exact hpe, fun hdis x hx1 hx2 => hbytes x ?_⟩
    simp only [outsideExtent]
    omega

/-- Witness of C21: engine 1 has slot 0 bound to the provider's function 0 and
then binds slot 1 to the provider's function 2; slot 0, a byte of the self
pointer (11007), the provider and a byte of the provider's buffer (1000) are as
before. -/
theorem ResolveImportedFunction_frame_witness :
    Example.twoSlot2.mem 11007 = Example.twoSlot1.mem 11007 ∧
    (importedFunctionTriple Example.twoSlot2 1 0 = importedFunctionTriple Example.twoSlot1 1 0 ∧
      importedDescriptor Example.twoSlot2 1 0 = importedDescriptor Example.twoSlot1 1 0) ∧
    Example.twoSlot2.engines[0]? = some Example.provider ∧
    Example.twoSlot2.mem 1000 = Example.twoSlot1.mem 1000 :=
  ⟨(ResolveImportedFunction_frame 1 Example.twoSlot1 Example.twoSlot2 1 1 2 0
      { Example.twoSlotImporter with importedFunctions := [⟨some 0, 0⟩, ⟨none, 0⟩] }
      rfl rfl).1 11007 (Or.inl (by decide)),
    (ResolveImportedFunction_frame 1 Example.twoSlot1 Example.twoSlot2 1 1 2 0
      { Example.twoSlotImporter with importedFunctions := [⟨some 0, 0⟩, ⟨none, 0⟩] }
      rfl rfl).2.2.2.1 0 (by decide),
    ((ResolveImportedFunction_frame 1 Example.twoSlot1 Example.twoSlot2 1 1 2 0
      { Example.twoSlotImporter with importedFunctions := [⟨some 0, 0⟩, ⟨none, 0⟩] }
      rfl rfl).2.2.2.2 Example.provider (by decide) rfl).1,
    ((ResolveImportedFunction_frame 1 Example.twoSlot1 Example.twoSlot2 1 1 2 0
      { Example.twoSlotImporter with importedFunctions := [⟨some 0, 0⟩, ⟨none, 0⟩] }
      rfl rfl).2.2.2.2 Example.provider (by decide) rfl).2 (Or.inl (by decide)) 1000
      (by decide) (by decide)⟩

end Wazevo
